import Mathlib

/-!
Shallow embedding of the interpreter core of the `wasmdbg` WebAssembly
debugger (crate `wasmdbg`: `vm/memory.rs`, `vm/instance.rs`, `vm/table.rs`,
`breakpoints.rs`, `debugger.rs`, plus the `value` module helpers).

Modelling conventions:
* Machine integers (`u32`, `u64`, `i32`, `i64`) are `Nat` bit patterns,
  reduced `% 2^32` / `% 2^64` exactly where the Rust code performs
  wrapping (release-mode) arithmetic.  Counters whose overflow is
  unreachable in practice (the breakpoint index counter, instruction
  pointers) are plain `Nat`.
* Floats are carried as raw bit patterns (the crate's nan-preserving
  `F32`/`F64` wrap the bits); the IEEE operations themselves are a
  parameter (`FloatSem`), since no claim depends on their values.
* Rust `Vec` stacks push at the back; every stack here keeps its TOP at
  the HEAD of the list, so Rust `push` is `cons` and Rust `last` is `head`.
* A Rust panic (out-of-bounds index, `unwrap` on `None`) or a provable
  divergence of a `loop` is modelled as `Option.none`.
* Fallible operations return the mutated state together with the trap,
  mirroring that Rust mutates `self` in place before an early `return Err`.
-/

set_option maxHeartbeats 800000

set_option maxRecDepth 4000

namespace Wasmdbg

/-! ## Numeric helpers (value module semantics) -/

def u32size : Nat := 2 ^ 32

def u64size : Nat := 2 ^ 64

/-- Reinterpret a `u32` bit pattern as an `i32` (Rust `as i32`). -/
def toSigned32 (n : Nat) : Int :=
  if n < 2 ^ 31 then (n : Int) else (n : Int) - (u32size : Int)

/-- Reinterpret a `u64` bit pattern as an `i64` (Rust `as i64`). -/
def toSigned64 (n : Nat) : Int :=
  if n < 2 ^ 63 then (n : Int) else (n : Int) - (u64size : Int)

/-- Reinterpret an `i32` value as its `u32` bit pattern (Rust `as u32`). -/
def toUnsigned32 (i : Int) : Nat :=
  (i % (u32size : Int)).toNat

/-- Reinterpret an `i64` value as its `u64` bit pattern (Rust `as u64`). -/
def toUnsigned64 (i : Int) : Nat :=
  (i % (u64size : Int)).toNat

/-- `bool_val` from `vm/instance.rs`: 1 for true, 0 for false. -/
def boolVal (b : Bool) : Nat :=
  if b then 1 else 0

/-- Rust `u32::wrapping_add`. -/
def wadd32 (a b : Nat) : Nat := (a + b) % u32size

/-- Rust `u32::wrapping_sub`. -/
def wsub32 (a b : Nat) : Nat := (a + u32size - b % u32size) % u32size

/-- Rust `u32::wrapping_mul`. -/
def wmul32 (a b : Nat) : Nat := (a * b) % u32size

/-- Rust `u64::wrapping_add`. -/
def wadd64 (a b : Nat) : Nat := (a + b) % u64size

/-- Rust `u64::wrapping_sub`. -/
def wsub64 (a b : Nat) : Nat := (a + u64size - b % u64size) % u64size

/-- Rust `u64::wrapping_mul`. -/
def wmul64 (a b : Nat) : Nat := (a * b) % u64size

/-- Rust `u32::wrapping_shl`: the shift amount is masked to the width. -/
def wshl32 (a b : Nat) : Nat := (a * 2 ^ (b % 32)) % u32size

/-- Rust `u64::wrapping_shl`. -/
def wshl64 (a b : Nat) : Nat := (a * 2 ^ (b % 64)) % u64size

/-- Logical right shift on `u32` (release-mode Rust masks the amount). -/
def shr32u (a b : Nat) : Nat := a / 2 ^ (b % 32)

/-- Logical right shift on `u64`. -/
def shr64u (a b : Nat) : Nat := a / 2 ^ (b % 64)

/-- Arithmetic right shift on an `i32` bit pattern (Rust `a as i32 >> b`,
which rounds toward negative infinity). -/
def shr32s (a b : Nat) : Nat :=
  toUnsigned32 (Int.fdiv (toSigned32 a) (2 ^ (b % 32)))

/-- Arithmetic right shift on an `i64` bit pattern. -/
def shr64s (a b : Nat) : Nat :=
  toUnsigned64 (Int.fdiv (toSigned64 a) (2 ^ (b % 64)))

/-- Rust `u32::rotate_left`. -/
def rotl32 (a b : Nat) : Nat :=
  let r := b % 32
  (a * 2 ^ r) % u32size + a / 2 ^ (32 - r)

/-- Rust `u32::rotate_right`. -/
def rotr32 (a b : Nat) : Nat := rotl32 a (32 - b % 32)

/-- Rust `u64::rotate_left`. -/
def rotl64 (a b : Nat) : Nat :=
  let r := b % 64
  (a * 2 ^ r) % u64size + a / 2 ^ (64 - r)

/-- Rust `u64::rotate_right`. -/
def rotr64 (a b : Nat) : Nat := rotl64 a (64 - b % 64)

/-- Rust `leading_zeros` for a width-`w` integer. -/
def clzW (w a : Nat) : Nat :=
  if a = 0 then w else w - 1 - Nat.log2 a

/-- Rust `trailing_zeros` for a width-`w` integer. -/
def ctzW (w a : Nat) : Nat :=
  ((List.range w).find? fun i => a / 2 ^ i % 2 = 1).getD w

/-- Rust `count_ones` for a width-`w` integer. -/
def popcntW (w a : Nat) : Nat :=
  (List.range w).countP fun i => a / 2 ^ i % 2 = 1

/-- Sign-extend a `w`-bit pattern to a `big`-bit pattern (`ExtendTo` for the
signed narrow types, i.e. Rust `as` from `i8`/`i16`/`i32`). -/
def signExtend (w big : Nat) (v : Nat) : Nat :=
  if v < 2 ^ (w - 1) then v else v + (2 ^ big - 2 ^ w)

/-- Little-endian decoding of a byte list (`LittleEndianConvert::from_little_endian`). -/
def fromLE (bytes : List Nat) : Nat :=
  bytes.foldr (fun b acc => b + 256 * acc) 0

/-- Little-endian encoding of a value into `width` bytes (`to_little_endian`). -/
def toLE (width v : Nat) : List Nat :=
  (List.range width).map fun i => v / 256 ^ i % 256

/-! ## Value domain -/

/-- `bwasm::ValueType` (numeric types of the MVP). -/
inductive ValueType
  | i32
  | i64
  | f32
  | f64
deriving DecidableEq, Repr

/-- `Value` from the value module: floats carry raw bit patterns. -/
inductive Value
  | I32 (bits : Nat)
  | I64 (bits : Nat)
  | F32 (bits : Nat)
  | F64 (bits : Nat)
deriving DecidableEq, Repr

namespace Value

def value_type : Value → ValueType
  | .I32 _ => .i32
  | .I64 _ => .i64
  | .F32 _ => .f32
  | .F64 _ => .f64

/-- `Value::default(t)`: the zero of type `t`. -/
def default : ValueType → Value
  | .i32 => .I32 0
  | .i64 => .I64 0
  | .f32 => .F32 0
  | .f64 => .F64 0

/-- Modelled from the spec: `Value::to::<T>()` of the final value module is
missing from the sources; per the spec it returns `Some` exactly when the tag
matches `T`'s value type, with no implicit widening.  Payloads are bit
patterns, so a matching tag simply reveals the bits. -/
def toPayload (t : ValueType) : Value → Option Nat
  | .I32 b => if t = .i32 then some b else none
  | .I64 b => if t = .i64 then some b else none
  | .F32 b => if t = .f32 then some b else none
  | .F64 b => if t = .f64 then some b else none

end Value

/-! ## Traps and positions -/

/-- `Trap` from `vm/mod.rs`. -/
inductive Trap
  | ReachedUnreachable
  | PopFromEmptyStack
  | NoFunctionFrame
  | ExecutionFinished
  | TypeError (expected found : ValueType)
  | DivisionByZero
  | SignedIntegerOverflow
  | InvalidConversionToInt
  | NoTable
  | NoMemory
  | IndirectCalleeAbsent
  | IndirectCallTypeMismatch
  | NoFunctionWithIndex (i : Nat)
  | NoStartFunction
  | BreakpointReached (i : Nat)
  | WatchpointReached (i : Nat)
  | InvalidBranchIndex
  | MemoryAccessOutOfRange (addr : Nat)
  | UnsupportedCallToImportedFunction (i : Nat)
  | ValueStackOverflow
  | LabelStackOverflow
  | FunctionStackOverflow
  | WasiExit (code : Nat)
deriving DecidableEq, Repr

/-- `CodePosition` from `vm/mod.rs`. -/
structure CodePosition where
  func_index : Nat
  instr_index : Nat
deriving DecidableEq, Repr

instance : Inhabited CodePosition := ⟨⟨0, 0⟩⟩

/-- `Label` from `vm/instance.rs`. -/
inductive Label
  | Bound (target : Nat)
  | Unbound
  | Return
deriving DecidableEq, Repr

/-- Number of `Return` labels on a label stack. -/
def returnCount (labels : List Label) : Nat :=
  labels.countP fun l => l = Label.Return

/-! ## Breakpoint registry (`breakpoints.rs`) -/

/-- `BreakpointTrigger`. -/
inductive BreakpointTrigger
  | Read
  | Write
  | ReadWrite
deriving DecidableEq, Repr

namespace BreakpointTrigger

def is_read : BreakpointTrigger → Bool
  | .Read | .ReadWrite => true
  | .Write => false

def is_write : BreakpointTrigger → Bool
  | .Write | .ReadWrite => true
  | .Read => false

end BreakpointTrigger

/-- `Breakpoint`. -/
inductive Breakpoint
  | Code (pos : CodePosition)
  | Memory (trigger : BreakpointTrigger) (addr : Nat)
  | Global (trigger : BreakpointTrigger) (index : Nat)
deriving DecidableEq, Repr

/-- `Breakpoints`: the `HashSet` fast-lookup sets and the `HashMap` index map
are modelled as lists without duplicate keys; since `HashMap`/`HashSet`
iteration order is unspecified in Rust, iteration is modelled as insertion
order. -/
structure Breakpoints where
  code : List CodePosition
  memory_read : List Nat
  memory_write : List Nat
  global_read : List Nat
  global_write : List Nat
  index_map : List (Nat × Breakpoint)
  next_index : Nat
deriving DecidableEq, Repr

/-- `HashSet::insert` (no duplicates). -/
def setInsert {α : Type} [DecidableEq α] (x : α) (s : List α) : List α :=
  if x ∈ s then s else s ++ [x]

/-- `HashSet::remove`. -/
def setRemove {α : Type} [DecidableEq α] (x : α) (s : List α) : List α :=
  s.filter fun y => y ≠ x

namespace Breakpoints

def new : Breakpoints :=
  ⟨[], [], [], [], [], [], 0⟩

/-- `Breakpoints::find_code`. -/
def find_code (bps : Breakpoints) (pos : CodePosition) : Option Nat :=
  if pos ∈ bps.code then
    bps.index_map.findSome? fun p =>
      match p.2 with
      | .Code break_pos => if break_pos = pos then some p.1 else none
      | _ => none
  else none

/-- `Breakpoints::find_global`: membership in the read/write set is checked,
then the first `Global` breakpoint with a matching index is returned — its
own trigger is not inspected. -/
def find_global (bps : Breakpoints) (global : Nat) (write : Bool) : Option Nat :=
  let found := if write then global ∈ bps.global_write else global ∈ bps.global_read
  if found then
    bps.index_map.findSome? fun p =>
      match p.2 with
      | .Global _ break_global => if break_global = global then some p.1 else none
      | _ => none
  else none

/-- `Breakpoints::find_memory`: each watched address in the read/write set is
tested against `[start, start+len)` (the bound computed with wrapping `u32`
addition); on a hit the first `Memory` breakpoint with that address is
returned — again without inspecting its trigger. -/
def find_memory (bps : Breakpoints) (start len : Nat) (write : Bool) : Option Nat :=
  let watchpoints := if write then bps.memory_write else bps.memory_read
  watchpoints.findSome? fun addr =>
    if start ≤ addr ∧ addr < (start + len) % u32size then
      bps.index_map.findSome? fun p =>
        match p.2 with
        | .Memory _ break_addr => if break_addr = addr then some p.1 else none
        | _ => none
    else none

/-- `Breakpoints::add_breakpoint`.  The index counter is a `u32` in the
source, so the release-mode `self.next_index += 1` wraps modulo `2^32`. -/
def add_breakpoint (bps : Breakpoints) (breakpoint : Breakpoint) : Breakpoints × Nat :=
  let bps :=
    match breakpoint with
    | .Code position => { bps with code := setInsert position bps.code }
    | .Memory trigger addr =>
        let bps := if trigger.is_read then { bps with memory_read := setInsert addr bps.memory_read } else bps
        if trigger.is_write then { bps with memory_write := setInsert addr bps.memory_write } else bps
    | .Global trigger index =>
        let bps := if trigger.is_read then { bps with global_read := setInsert index bps.global_read } else bps
        if trigger.is_write then { bps with global_write := setInsert index bps.global_write } else bps
  ({ bps with
      index_map := bps.index_map ++ [(bps.next_index, breakpoint)]
      next_index := (bps.next_index + 1) % u32size },
   bps.next_index)

/-- `Breakpoints::delete_breakpoint`. -/
def delete_breakpoint (bps : Breakpoints) (index : Nat) : Breakpoints × Bool :=
  match bps.index_map.lookup index with
  | none => (bps, false)
  | some breakpoint =>
    let bps :=
      match breakpoint with
      | .Code position => { bps with code := setRemove position bps.code }
      | .Memory trigger addr =>
          let bps := if trigger.is_read then { bps with memory_read := setRemove addr bps.memory_read } else bps
          if trigger.is_write then { bps with memory_write := setRemove addr bps.memory_write } else bps
      | .Global trigger index =>
          let bps := if trigger.is_read then { bps with global_read := setRemove index bps.global_read } else bps
          if trigger.is_write then { bps with global_write := setRemove index bps.global_write } else bps
    ({ bps with index_map := bps.index_map.filter fun p => p.1 ≠ index }, true)

/-- `Breakpoints::clear`: wipes everything but keeps the counter. -/
def clear (bps : Breakpoints) : Breakpoints :=
  { code := [], memory_read := [], memory_write := [], global_read := [],
    global_write := [], index_map := [], next_index := bps.next_index }

end Breakpoints

/-! ## Linear memory (`vm/memory.rs`) -/

/-- `PAGE_SIZE` from `bwasm` (65,536). -/
def PAGE_SIZE : Nat := 65536

/-- `MEMORY_MAX_PAGES` from `vm/memory.rs`. -/
def MEMORY_MAX_PAGES : Nat := 0x10000

/-- `bwasm::ResizableLimits` (page counts). -/
structure ResizableLimits where
  initial : Nat
  maximum : Option Nat
deriving DecidableEq, Repr

/-- A `Memory`: byte buffer plus declared limits. -/
structure Memory where
  data : List Nat
  limits : ResizableLimits
deriving DecidableEq, Repr

/-- `InitError` from `vm/mod.rs`. -/
inductive InitError
  | GlobalGetUnimplemented
  | MismatchedType (expected found : ValueType)
  | OffsetInvalidType (found : ValueType)
deriving DecidableEq, Repr

/-- `InitExpr` from `bwasm` (constant or imported-global read). -/
inductive InitExpr
  | I32Const (bits : Nat)
  | I64Const (bits : Nat)
  | F32Const (bits : Nat)
  | F64Const (bits : Nat)
  | Global (index : Nat)
deriving DecidableEq, Repr

/-- `eval_init_expr` from `vm/mod.rs`. -/
def eval_init_expr : InitExpr → Except InitError Value
  | .I32Const v => .ok (.I32 v)
  | .I64Const v => .ok (.I64 v)
  | .F32Const v => .ok (.F32 v)
  | .F64Const v => .ok (.F64 v)
  | .Global _ => .error .GlobalGetUnimplemented

/-- `bwasm::MemoryInit`: a data segment. -/
structure MemoryInit where
  index : Nat
  offset : InitExpr
  data : List Nat
deriving DecidableEq, Repr

/-- Rust `Vec::resize(new_len, 0)`. -/
def vecResize (l : List Nat) (newLen : Nat) : List Nat :=
  if newLen ≤ l.length then l.take newLen
  else l ++ List.replicate (newLen - l.length) 0

/-- Overwrite `dst` from position `offset` with the bytes of `src`
(Rust `dst[offset..offset+len].copy_from_slice(src)`). -/
def listOverwrite (dst : List Nat) (offset : Nat) (src : List Nat) : List Nat :=
  dst.take offset ++ src ++ dst.drop (offset + src.length)

namespace Memory

/-- `Memory::new`: `data: vec![0; memory.limits().initial() as usize]` — note
that `initial` counts PAGES, yet the buffer is allocated with `initial`
BYTES. -/
def new (limits : ResizableLimits) : Memory :=
  { data := List.replicate limits.initial 0, limits := limits }

/-- `Memory::page_count`: `self.data.len() as u32 / PAGE_SIZE`. -/
def page_count (m : Memory) : Nat :=
  m.data.length % u32size / PAGE_SIZE

/-- `Memory::grow`.  `page_count + delta` and the byte product are `u32`
arithmetic and wrap (release-mode semantics); the returned `i32` is
`page_count as i32` or the sentinel `-1`. -/
def grow (m : Memory) (delta : Nat) : Memory × Int :=
  let page_count := m.page_count
  let sum := (page_count + delta) % u32size
  let fail : Bool :=
    match m.limits.maximum with
    | some max => sum > max
    | none => sum > MEMORY_MAX_PAGES
  if fail then (m, -1)
  else ({ m with data := vecResize m.data (sum * PAGE_SIZE % u32size) },
        toSigned32 page_count)

/-- `Memory::load::<T>` for a `size_of::<T> = size` byte read: the byte
range is `address .. address + size` (plain `usize` arithmetic), decoded
little-endian; out of range fails with `(address + size) as u32`. -/
def load (m : Memory) (size address : Nat) : Except Trap Nat :=
  if address + size ≤ m.data.length then
    .ok (fromLE ((m.data.drop address).take size))
  else .error (.MemoryAccessOutOfRange ((address + size) % u32size))

/-- `Memory::store::<T>`: same bounds rule, little-endian write. -/
def store (m : Memory) (size address v : Nat) : Except Trap Memory :=
  if address + size ≤ m.data.length then
    .ok { m with data := listOverwrite m.data address (toLE size v) }
  else .error (.MemoryAccessOutOfRange ((address + size) % u32size))

/-- `Memory::from_module`: build each memory with `Memory::new`, then apply
the data inits; a segment reaching past the current length grows the buffer
(`data.resize(offset + len, 0)`).  Rust indexes `memories[init.index()]`,
which panics when out of range — modelled as `none` inside `Except` via a
dedicated error-free `Option`. -/
def from_module (memories : List ResizableLimits) (inits : List MemoryInit) :
    Option (Except InitError (List Memory)) :=
  let base := memories.map Memory.new
  go base inits
where
  go (ms : List Memory) : List MemoryInit → Option (Except InitError (List Memory))
    | [] => some (.ok ms)
    | init :: rest =>
      match ms.get? init.index with
      | none => none
      | some memory =>
        match eval_init_expr init.offset with
        | .error e => some (.error e)
        | .ok offsetVal =>
          match offsetVal.toPayload .i32 with
          | none => some (.error (.OffsetInvalidType offsetVal.value_type))
          | some offset =>
            let len := init.data.length
            let memory :=
              if offset + len > memory.data.length then
                { memory with data := vecResize memory.data (offset + len) }
              else memory
            let memory := { memory with data := listOverwrite memory.data offset init.data }
            go (ms.set init.index memory) rest

end Memory

/-! ## Table (`vm/table.rs`) -/

/-- `TableElement`. -/
inductive TableElement
  | Null
  | Func (index : Nat)
deriving DecidableEq, Repr

/-- `Table`: vector of nullable function references. -/
structure Table where
  elements : List TableElement
deriving DecidableEq, Repr

/-- `Table::get`: `Null` for out-of-range indices. -/
def Table.get (t : Table) (index : Nat) : TableElement :=
  (t.elements.get? index).getD .Null

/-! ## Module view (`bwasm`, as consumed by the VM) -/

/-- A function signature: parameter types, optional return type, and the
type reference used by `call_indirect` signature checks. -/
structure FuncType where
  params : List ValueType
  ret : Option ValueType
  type_ref : Nat
deriving DecidableEq, Repr

/-- `bwasm::Instruction` — the MVP opcodes dispatched in
`VM::execute_step_internal`.  Loads and stores carry the `(flag, offset)`
memory immediate; the flag is unused by the interpreter. -/
inductive Instruction
  | Unreachable
  | Nop
  | Block
  | Loop
  | If
  | Else
  | End
  | Br (index : Nat)
  | BrIf (index : Nat)
  | BrTable (table : List Nat) (dflt : Nat)
  | Return
  | Call (index : Nat)
  | CallIndirect (signature : Nat) (reserved : Nat)
  | Drop
  | Select
  | GetLocal (index : Nat)
  | SetLocal (index : Nat)
  | TeeLocal (index : Nat)
  | GetGlobal (index : Nat)
  | SetGlobal (index : Nat)
  | I32Load (flag offset : Nat)
  | I64Load (flag offset : Nat)
  | F32Load (flag offset : Nat)
  | F64Load (flag offset : Nat)
  | I32Load8S (flag offset : Nat)
  | I32Load8U (flag offset : Nat)
  | I32Load16S (flag offset : Nat)
  | I32Load16U (flag offset : Nat)
  | I64Load8S (flag offset : Nat)
  | I64Load8U (flag offset : Nat)
  | I64Load16S (flag offset : Nat)
  | I64Load16U (flag offset : Nat)
  | I64Load32S (flag offset : Nat)
  | I64Load32U (flag offset : Nat)
  | I32Store (flag offset : Nat)
  | I64Store (flag offset : Nat)
  | F32Store (flag offset : Nat)
  | F64Store (flag offset : Nat)
  | I32Store8 (flag offset : Nat)
  | I32Store16 (flag offset : Nat)
  | I64Store8 (flag offset : Nat)
  | I64Store16 (flag offset : Nat)
  | I64Store32 (flag offset : Nat)
  | CurrentMemory (reserved : Nat)
  | GrowMemory (reserved : Nat)
  | I32Const (bits : Nat)
  | I64Const (bits : Nat)
  | F32Const (bits : Nat)
  | F64Const (bits : Nat)
  | I32Eqz
  | I32Eq
  | I32Ne
  | I32LtS
  | I32LtU
  | I32GtS
  | I32GtU
  | I32LeS
  | I32LeU
  | I32GeS
  | I32GeU
  | I64Eqz
  | I64Eq
  | I64Ne
  | I64LtS
  | I64LtU
  | I64GtS
  | I64GtU
  | I64LeS
  | I64LeU
  | I64GeS
  | I64GeU
  | F32Eq
  | F32Ne
  | F32Lt
  | F32Gt
  | F32Le
  | F32Ge
  | F64Eq
  | F64Ne
  | F64Lt
  | F64Gt
  | F64Le
  | F64Ge
  | I32Clz
  | I32Ctz
  | I32Popcnt
  | I32Add
  | I32Sub
  | I32Mul
  | I32DivS
  | I32DivU
  | I32RemS
  | I32RemU
  | I32And
  | I32Or
  | I32Xor
  | I32Shl
  | I32ShrS
  | I32ShrU
  | I32Rotl
  | I32Rotr
  | I64Clz
  | I64Ctz
  | I64Popcnt
  | I64Add
  | I64Sub
  | I64Mul
  | I64DivS
  | I64DivU
  | I64RemS
  | I64RemU
  | I64And
  | I64Or
  | I64Xor
  | I64Shl
  | I64ShrS
  | I64ShrU
  | I64Rotl
  | I64Rotr
  | F32Abs
  | F32Neg
  | F32Ceil
  | F32Floor
  | F32Trunc
  | F32Nearest
  | F32Sqrt
  | F32Add
  | F32Sub
  | F32Mul
  | F32Div
  | F32Min
  | F32Max
  | F32Copysign
  | F64Abs
  | F64Neg
  | F64Ceil
  | F64Floor
  | F64Trunc
  | F64Nearest
  | F64Sqrt
  | F64Add
  | F64Sub
  | F64Mul
  | F64Div
  | F64Min
  | F64Max
  | F64Copysign
  | I32WrapI64
  | I32TruncSF32
  | I32TruncUF32
  | I32TruncSF64
  | I32TruncUF64
  | I64ExtendSI32
  | I64ExtendUI32
  | I64TruncSF32
  | I64TruncUF32
  | I64TruncSF64
  | I64TruncUF64
  | F32ConvertSI32
  | F32ConvertUI32
  | F32ConvertSI64
  | F32ConvertUI64
  | F32DemoteF64
  | F64ConvertSI32
  | F64ConvertUI32
  | F64ConvertSI64
  | F64ConvertUI64
  | F64PromoteF32
  | I32ReinterpretF32
  | I64ReinterpretF64
  | F32ReinterpretI32
  | F64ReinterpretI64

/-- A `bwasm::Function` as seen by the VM: imported functions expose a
signature only. -/
structure Func where
  func_type : FuncType
  locals : List ValueType
  instructions : List Instruction
  imported : Bool

/-- The read-only module projection used by the VM. -/
structure Module where
  functions : List Func
  start_func : Option Nat

/-- `Module::get_func`. -/
def Module.get_func (m : Module) (i : Nat) : Option Func :=
  m.functions.get? i


/-! ## Integer division and remainder (value module) -/

/-- Modelled from the spec: the final value module (with `div`/`rem`
returning `VMResult`) is missing from the sources; §4.A: `div_s`/`rem_s`
fail `DivisionByZero` when the divisor is zero and `SignedIntegerOverflow`
for the single pair `INT_MIN / -1`; unsigned `div_u`/`rem_u` fail only on
`DivisionByZero`.  Signed division truncates toward zero. -/
def i32divS (a b : Nat) : Except Trap Nat :=
  if toSigned32 b = 0 then .error .DivisionByZero
  else if toSigned32 a = -(2 ^ 31) ∧ toSigned32 b = -1 then .error .SignedIntegerOverflow
  else .ok (toUnsigned32 (Int.tdiv (toSigned32 a) (toSigned32 b)))

/-- Modelled from the spec: see `i32divS`. -/
def i32remS (a b : Nat) : Except Trap Nat :=
  if toSigned32 b = 0 then .error .DivisionByZero
  else if toSigned32 a = -(2 ^ 31) ∧ toSigned32 b = -1 then .error .SignedIntegerOverflow
  else .ok (toUnsigned32 (Int.tmod (toSigned32 a) (toSigned32 b)))

/-- Modelled from the spec: see `i32divS`. -/
def u32div (a b : Nat) : Except Trap Nat :=
  if b = 0 then .error .DivisionByZero else .ok (a / b)

/-- Modelled from the spec: see `i32divS`. -/
def u32rem (a b : Nat) : Except Trap Nat :=
  if b = 0 then .error .DivisionByZero else .ok (a % b)

/-- Modelled from the spec: see `i32divS`. -/
def i64divS (a b : Nat) : Except Trap Nat :=
  if toSigned64 b = 0 then .error .DivisionByZero
  else if toSigned64 a = -(2 ^ 63) ∧ toSigned64 b = -1 then .error .SignedIntegerOverflow
  else .ok (toUnsigned64 (Int.tdiv (toSigned64 a) (toSigned64 b)))

/-- Modelled from the spec: see `i32divS`. -/
def i64remS (a b : Nat) : Except Trap Nat :=
  if toSigned64 b = 0 then .error .DivisionByZero
  else if toSigned64 a = -(2 ^ 63) ∧ toSigned64 b = -1 then .error .SignedIntegerOverflow
  else .ok (toUnsigned64 (Int.tmod (toSigned64 a) (toSigned64 b)))

/-- Modelled from the spec: see `i32divS`. -/
def u64div (a b : Nat) : Except Trap Nat :=
  if b = 0 then .error .DivisionByZero else .ok (a / b)

/-- Modelled from the spec: see `i32divS`. -/
def u64rem (a b : Nat) : Except Trap Nat :=
  if b = 0 then .error .DivisionByZero else .ok (a % b)

/-! ## Float semantics parameter

The interpreter manipulates floats only through the operations below
(`nan_preserving_float` and Rust `f32`/`f64` intrinsics), always on raw bit
patterns.  No claim depends on their values, so they are kept as an
uninterpreted parameter of the step function; `trivialFloatSem` is a
concrete instance used to run integer-only programs. -/

structure FloatSem where
  f32abs : Nat → Nat := fun _ => 0
  f32neg : Nat → Nat := fun _ => 0
  f32ceil : Nat → Nat := fun _ => 0
  f32floor : Nat → Nat := fun _ => 0
  f32trunc : Nat → Nat := fun _ => 0
  f32nearest : Nat → Nat := fun _ => 0
  f32sqrt : Nat → Nat := fun _ => 0
  f32add : Nat → Nat → Nat := fun _ _ => 0
  f32sub : Nat → Nat → Nat := fun _ _ => 0
  f32mul : Nat → Nat → Nat := fun _ _ => 0
  f32div : Nat → Nat → Nat := fun _ _ => 0
  f32min : Nat → Nat → Nat := fun _ _ => 0
  f32max : Nat → Nat → Nat := fun _ _ => 0
  f32copysign : Nat → Nat → Nat := fun _ _ => 0
  f32eq : Nat → Nat → Bool := fun _ _ => false
  f32ne : Nat → Nat → Bool := fun _ _ => false
  f32lt : Nat → Nat → Bool := fun _ _ => false
  f32gt : Nat → Nat → Bool := fun _ _ => false
  f32le : Nat → Nat → Bool := fun _ _ => false
  f32ge : Nat → Nat → Bool := fun _ _ => false
  f64abs : Nat → Nat := fun _ => 0
  f64neg : Nat → Nat := fun _ => 0
  f64ceil : Nat → Nat := fun _ => 0
  f64floor : Nat → Nat := fun _ => 0
  f64trunc : Nat → Nat := fun _ => 0
  f64nearest : Nat → Nat := fun _ => 0
  f64sqrt : Nat → Nat := fun _ => 0
  f64add : Nat → Nat → Nat := fun _ _ => 0
  f64sub : Nat → Nat → Nat := fun _ _ => 0
  f64mul : Nat → Nat → Nat := fun _ _ => 0
  f64div : Nat → Nat → Nat := fun _ _ => 0
  f64min : Nat → Nat → Nat := fun _ _ => 0
  f64max : Nat → Nat → Nat := fun _ _ => 0
  f64copysign : Nat → Nat → Nat := fun _ _ => 0
  f64eq : Nat → Nat → Bool := fun _ _ => false
  f64ne : Nat → Nat → Bool := fun _ _ => false
  f64lt : Nat → Nat → Bool := fun _ _ => false
  f64gt : Nat → Nat → Bool := fun _ _ => false
  f64le : Nat → Nat → Bool := fun _ _ => false
  f64ge : Nat → Nat → Bool := fun _ _ => false
  f32_trunc_i32 : Nat → Option Int := fun _ => none
  f32_trunc_u32 : Nat → Option Nat := fun _ => none
  f32_trunc_i64 : Nat → Option Int := fun _ => none
  f32_trunc_u64 : Nat → Option Nat := fun _ => none
  f64_trunc_i32 : Nat → Option Int := fun _ => none
  f64_trunc_u32 : Nat → Option Nat := fun _ => none
  f64_trunc_i64 : Nat → Option Int := fun _ => none
  f64_trunc_u64 : Nat → Option Nat := fun _ => none
  f32_from_int : Int → Nat := fun _ => 0
  f64_from_int : Int → Nat := fun _ => 0
  f32_demote : Nat → Nat := fun _ => 0
  f64_promote : Nat → Nat := fun _ => 0

/-- A fixed, concrete float semantics (all operations return zero); only
used to execute integer-only concrete programs. -/
def trivialFloatSem : FloatSem := {}

/-! ## VM state (`vm/instance.rs`) -/

def VALUE_STACK_LIMIT : Nat := 1024 * 1024

def LABEL_STACK_LIMIT : Nat := 64 * 1024

def FUNCTION_STACK_LIMIT : Nat := 1024

/-- `FunctionFrame`. -/
structure FunctionFrame where
  ret_addr : CodePosition
  locals : List Value
deriving DecidableEq

/-- The mutable state of a `VM`: the shared breakpoint registry is embedded
as a value (the REPL's edits between steps are modelled as state updates). -/
structure VMState where
  module : Module
  memories : List Memory
  tables : List Table
  ip : CodePosition
  globals : List Value
  value_stack : List Value
  label_stack : List Label
  function_stack : List FunctionFrame
  trap : Option Trap
  breakpoints : Breakpoints

namespace VMState

/-- `VM::push`. -/
def push (s : VMState) (v : Value) : VMState × Option Trap :=
  if s.value_stack.length ≥ VALUE_STACK_LIMIT then (s, some .ValueStackOverflow)
  else ({ s with value_stack := v :: s.value_stack }, none)

/-- `VM::pop`. -/
def pop (s : VMState) : VMState × Except Trap Value :=
  match s.value_stack with
  | [] => (s, .error .PopFromEmptyStack)
  | v :: rest => ({ s with value_stack := rest }, .ok v)

/-- `VM::pop_as::<T>`. -/
def pop_as (s : VMState) (t : ValueType) : VMState × Except Trap Nat :=
  match s.pop with
  | (s, .error e) => (s, .error e)
  | (s, .ok v) =>
    match v.toPayload t with
    | some n => (s, .ok n)
    | none => (s, .error (.TypeError t v.value_type))

/-- `VM::unop`. -/
def unop (s : VMState) (t : ValueType) (f : Nat → Value) : VMState × Option Trap :=
  match s.pop_as t with
  | (s, .error e) => (s, some e)
  | (s, .ok x) => s.push (f x)

/-- `VM::unop_try`. -/
def unop_try (s : VMState) (t : ValueType) (f : Nat → Except Trap Value) : VMState × Option Trap :=
  match s.pop_as t with
  | (s, .error e) => (s, some e)
  | (s, .ok x) =>
    match f x with
    | .error e => (s, some e)
    | .ok v => s.push v

/-- `VM::binop` (pops `b`, then `a`, pushes `f a b`). -/
def binop (s : VMState) (t : ValueType) (f : Nat → Nat → Value) : VMState × Option Trap :=
  match s.pop_as t with
  | (s, .error e) => (s, some e)
  | (s, .ok b) =>
    match s.pop_as t with
    | (s, .error e) => (s, some e)
    | (s, .ok a) => s.push (f a b)

/-- `VM::binop_try`. -/
def binop_try (s : VMState) (t : ValueType) (f : Nat → Nat → Except Trap Value) :
    VMState × Option Trap :=
  match s.pop_as t with
  | (s, .error e) => (s, some e)
  | (s, .ok b) =>
    match s.pop_as t with
    | (s, .error e) => (s, some e)
    | (s, .ok a) =>
      match f a b with
      | .error e => (s, some e)
      | .ok v => s.push v

end VMState

/-- The forward scan of `VM::branch` for `Unbound` labels: track the depth
of nested structured ops until `index` reaches zero; an out-of-bounds read
is a Rust panic (`none`). -/
def scanUnmatchedEnd (code : List Instruction) (ip index : Nat) : Option Nat :=
  if h : ip < code.length then
    let index' :=
      match code.get ⟨ip, h⟩ with
      | .Block | .Loop | .If => index + 1
      | .End => index - 1
      | _ => index
    if index' = 0 then some ip else scanUnmatchedEnd code (ip + 1) index'
  else none
termination_by code.length - ip

/-- The forward scan of `VM::branch_else`: like `scanUnmatchedEnd` starting
at depth 1, but an `Else` at depth 1 exits just past itself. -/
def scanElse (code : List Instruction) (ip index : Nat) : Option Nat :=
  if h : ip < code.length then
    match code.get ⟨ip, h⟩ with
    | .Else =>
      if index = 1 then some (ip + 1)
      else if index = 0 then some ip
      else scanElse code (ip + 1) index
    | .Block => if index + 1 = 0 then some ip else scanElse code (ip + 1) (index + 1)
    | .Loop => if index + 1 = 0 then some ip else scanElse code (ip + 1) (index + 1)
    | .If => if index + 1 = 0 then some ip else scanElse code (ip + 1) (index + 1)
    | .End => if index - 1 = 0 then some ip else scanElse code (ip + 1) (index - 1)
    | _ => if index = 0 then some ip else scanElse code (ip + 1) index
  else none
termination_by code.length - ip

namespace VMState

/-- `VM::branch`: truncate `index` labels off the top (Rust
`truncate(len - index)`; the `usize` subtraction wraps in release mode, so
`index > len` leaves the stack unchanged), then follow the target label.
An empty stack after truncation makes `last().unwrap()` panic. -/
def branch (s : VMState) (index : Nat) : Option (VMState × Option Trap) :=
  let labels := if index ≤ s.label_stack.length then s.label_stack.drop index else s.label_stack
  let s := { s with label_stack := labels }
  match labels.head? with
  | none => none
  | some (.Bound target) => some ({ s with ip := { s.ip with instr_index := target } }, none)
  | some .Unbound =>
    match s.module.get_func s.ip.func_index with
    | none => some (s, some (.NoFunctionWithIndex s.ip.func_index))
    | some func =>
      match scanUnmatchedEnd func.instructions s.ip.instr_index (index + 1) with
      | none => none
      | some target => some ({ s with ip := { s.ip with instr_index := target } }, none)
  | some .Return => some (s, some .InvalidBranchIndex)

/-- `VM::branch_else`. -/
def branch_else (s : VMState) : Option (VMState × Option Trap) :=
  match s.module.get_func s.ip.func_index with
  | none => some (s, some (.NoFunctionWithIndex s.ip.func_index))
  | some func =>
    match scanElse func.instructions s.ip.instr_index 1 with
    | none => none
    | some target => some ({ s with ip := { s.ip with instr_index := target } }, none)

end VMState

/-- The unwinding loop of the `Return` instruction: pop labels until a
`Return` label has been popped.  Without a `Return` label the Rust loop
never terminates (`none`). -/
def popToReturn : List Label → Option (List Label)
  | [] => none
  | .Return :: rest => some rest
  | _ :: rest => popToReturn rest

namespace VMState

/-- `VM::call`: resolve the callee, move `params_count` values off the value
stack into the new locals (popping reverses, so reverse again), append
zero-initialised declared locals, check both stack limits (the `Return`
label is pushed BEFORE the function-stack limit is checked), and jump. -/
def call (s : VMState) (index : Nat) : VMState × Option Trap :=
  match s.module.get_func index with
  | none => (s, some (.NoFunctionWithIndex index))
  | some func =>
    let params_count := func.func_type.params.length
    if params_count ≤ s.value_stack.length then
      let locals := (s.value_stack.take params_count).reverse
      let s := { s with value_stack := s.value_stack.drop params_count }
      let locals := locals ++ func.locals.map Value.default
      if s.label_stack.length ≥ LABEL_STACK_LIMIT then (s, some .LabelStackOverflow)
      else
        let s := { s with label_stack := .Return :: s.label_stack }
        if s.function_stack.length ≥ FUNCTION_STACK_LIMIT then (s, some .FunctionStackOverflow)
        else
          ({ s with
              function_stack := ⟨s.ip, locals⟩ :: s.function_stack
              ip := ⟨index, 0⟩ }, none)
    else ({ s with value_stack := [] }, some .PopFromEmptyStack)

/-- `VM::perform_load`: effective address is the wrapping `u32` sum of the
popped base and the immediate offset; the watchpoint check runs after the
value has been pushed. -/
def perform_load (s : VMState) (width : Nat) (mk : Nat → Value) (offset : Nat) :
    VMState × Option Trap :=
  match s.pop_as .i32 with
  | (s, .error e) => (s, some e)
  | (s, .ok base) =>
    let address := (base + offset) % u32size
    match s.memories.get? 0 with
    | none => (s, some .NoMemory)
    | some mem =>
      match mem.load width address with
      | .error t => (s, some t)
      | .ok v =>
        match s.push (mk v) with
        | (s, some t) => (s, some t)
        | (s, none) =>
          match s.breakpoints.find_memory address width false with
          | some bi => (s, some (.WatchpointReached bi))
          | none => (s, none)

/-- `VM::perform_load_extend`: same shape, the narrow value is extended by
`mk` (`ExtendTo`). -/
def perform_load_extend (s : VMState) (width : Nat) (mk : Nat → Value) (offset : Nat) :
    VMState × Option Trap :=
  match s.pop_as .i32 with
  | (s, .error e) => (s, some e)
  | (s, .ok base) =>
    let address := (base + offset) % u32size
    match s.memories.get? 0 with
    | none => (s, some .NoMemory)
    | some mem =>
      match mem.load width address with
      | .error t => (s, some t)
      | .ok v =>
        match s.push (mk v) with
        | (s, some t) => (s, some t)
        | (s, none) =>
          match s.breakpoints.find_memory address width false with
          | some bi => (s, some (.WatchpointReached bi))
          | none => (s, none)

/-- `VM::perform_store`: pops the value, then the base address; the
watchpoint check runs after the bytes are written. -/
def perform_store (s : VMState) (t : ValueType) (width : Nat) (offset : Nat) :
    VMState × Option Trap :=
  match s.pop_as t with
  | (s, .error e) => (s, some e)
  | (s, .ok value) =>
    match s.pop_as .i32 with
    | (s, .error e) => (s, some e)
    | (s, .ok base) =>
      let address := (base + offset) % u32size
      match s.memories.get? 0 with
      | none => (s, some .NoMemory)
      | some mem =>
        match mem.store width address value with
        | .error tr => (s, some tr)
        | .ok mem' =>
          let s := { s with memories := s.memories.set 0 mem' }
          match s.breakpoints.find_memory address width true with
          | some bi => (s, some (.WatchpointReached bi))
          | none => (s, none)

/-- `VM::perform_store_wrap`: the popped value is wrapped (`WrapTo`) to the
narrow width before writing. -/
def perform_store_wrap (s : VMState) (t : ValueType) (width : Nat) (offset : Nat) :
    VMState × Option Trap :=
  match s.pop_as t with
  | (s, .error e) => (s, some e)
  | (s, .ok value) =>
    let value := value % 256 ^ width
    match s.pop_as .i32 with
    | (s, .error e) => (s, some e)
    | (s, .ok base) =>
      let address := (base + offset) % u32size
      match s.memories.get? 0 with
      | none => (s, some .NoMemory)
      | some mem =>
        match mem.store width address value with
        | .error tr => (s, some tr)
        | .ok mem' =>
          let s := { s with memories := s.memories.set 0 mem' }
          match s.breakpoints.find_memory address width true with
          | some bi => (s, some (.WatchpointReached bi))
          | none => (s, none)

end VMState


/-! ## Instruction dispatch (`VM::execute_step_internal` match) -/

/-- The per-opcode effect: the body of the big `match` in
`VM::execute_step_internal`, applied to the state whose `ip` has already
been advanced past the instruction. -/
def stepInstr (fs : FloatSem) (s : VMState) : Instruction → Option (VMState × Option Trap)
  | .Unreachable => some (s, some .ReachedUnreachable)
  | .Nop => some (s, none)
  | .Block => some ({ s with label_stack := .Unbound :: s.label_stack }, none)
  | .Loop => some ({ s with label_stack := .Bound s.ip.instr_index :: s.label_stack }, none)
  | .If =>
    let s := { s with label_stack := .Unbound :: s.label_stack }
    match s.pop_as .i32 with
    | (s, .error e) => some (s, some e)
    | (s, .ok cond) => if cond = 0 then s.branch_else else some (s, none)
  | .Else => s.branch 0
  | .End =>
    match s.label_stack with
    | [] => some (s, none)
    | .Return :: rest =>
      let s := { s with label_stack := rest }
      if rest.isEmpty then some (s, none)
      else
        match s.function_stack with
        | [] => none
        | frame :: frames => some ({ s with function_stack := frames, ip := frame.ret_addr }, none)
    | _ :: rest => some ({ s with label_stack := rest }, none)
  | .Br index => s.branch index
  | .BrIf index =>
    match s.pop_as .i32 with
    | (s, .error e) => some (s, some e)
    | (s, .ok cond) => if cond ≠ 0 then s.branch index else some (s, none)
  | .BrTable table dflt =>
    match s.pop_as .i32 with
    | (s, .error e) => some (s, some e)
    | (s, .ok index) => s.branch ((table.get? index).getD dflt)
  | .Return =>
    match popToReturn s.label_stack with
    | none => none
    | some rest =>
      let s := { s with label_stack := rest }
      if rest.isEmpty then some (s, none)
      else
        match s.function_stack with
        | [] => none
        | frame :: frames => some ({ s with function_stack := frames, ip := frame.ret_addr }, none)
  | .Call index => some (s.call index)
  | .CallIndirect signature _ =>
    match s.pop_as .i32 with
    | (s, .error e) => some (s, some e)
    | (s, .ok callee) =>
      match s.tables.get? 0 with
      | none => some (s, some .NoTable)
      | some table =>
        match table.get callee with
        | .Null => some (s, some .IndirectCalleeAbsent)
        | .Func func_index =>
          match s.module.get_func func_index with
          | none => some (s, some (.NoFunctionWithIndex func_index))
          | some func =>
            if func.func_type.type_ref ≠ signature then some (s, some .IndirectCallTypeMismatch)
            else some (s.call func_index)
  | .Drop =>
    match s.pop with
    | (s, .error e) => some (s, some e)
    | (s, .ok _) => some (s, none)
  | .Select =>
    match s.pop_as .i32 with
    | (s, .error e) => some (s, some e)
    | (s, .ok cond) =>
      match s.pop with
      | (s, .error e) => some (s, some e)
      | (s, .ok val2) =>
        match s.pop with
        | (s, .error e) => some (s, some e)
        | (s, .ok val1) => some (if cond ≠ 0 then s.push val1 else s.push val2)
  | .GetLocal index =>
    match s.function_stack with
    | [] => some (s, some .NoFunctionFrame)
    | frame :: _ =>
      match frame.locals.get? index with
      | none => none
      | some val => some (s.push val)
  | .SetLocal index =>
    match s.pop with
    | (s, .error e) => some (s, some e)
    | (s, .ok val) =>
      match s.function_stack with
      | [] => some (s, some .NoFunctionFrame)
      | frame :: frames =>
        if index < frame.locals.length then
          some ({ s with function_stack := { frame with locals := frame.locals.set index val } :: frames }, none)
        else none
  | .TeeLocal index =>
    match s.value_stack.head? with
    | none => some (s, some .PopFromEmptyStack)
    | some val =>
      match s.function_stack with
      | [] => some (s, some .NoFunctionFrame)
      | frame :: frames =>
        if index < frame.locals.length then
          some ({ s with function_stack := { frame with locals := frame.locals.set index val } :: frames }, none)
        else none
  | .GetGlobal index =>
    match s.globals.get? index with
    | none => none
    | some val =>
      match s.push val with
      | (s, some t) => some (s, some t)
      | (s, none) =>
        match s.breakpoints.find_global index false with
        | some bi => some (s, some (.WatchpointReached bi))
        | none => some (s, none)
  | .SetGlobal index =>
    match s.pop with
    | (s, .error e) => some (s, some e)
    | (s, .ok val) =>
      if index < s.globals.length then
        let s := { s with globals := s.globals.set index val }
        match s.breakpoints.find_global index true with
        | some bi => some (s, some (.WatchpointReached bi))
        | none => some (s, none)
      else none
  | .I32Load _ offset => some (s.perform_load 4 .I32 offset)
  | .I64Load _ offset => some (s.perform_load 8 .I64 offset)
  | .F32Load _ offset => some (s.perform_load 4 .F32 offset)
  | .F64Load _ offset => some (s.perform_load 8 .F64 offset)
  | .I32Load8S _ offset => some (s.perform_load_extend 1 (fun v => .I32 (signExtend 8 32 v)) offset)
  | .I32Load8U _ offset => some (s.perform_load_extend 1 .I32 offset)
  | .I32Load16S _ offset => some (s.perform_load_extend 2 (fun v => .I32 (signExtend 16 32 v)) offset)
  | .I32Load16U _ offset => some (s.perform_load_extend 2 .I32 offset)
  | .I64Load8S _ offset => some (s.perform_load_extend 1 (fun v => .I64 (signExtend 8 64 v)) offset)
  | .I64Load8U _ offset => some (s.perform_load_extend 1 .I64 offset)
  | .I64Load16S _ offset => some (s.perform_load_extend 2 (fun v => .I64 (signExtend 16 64 v)) offset)
  | .I64Load16U _ offset => some (s.perform_load_extend 2 .I64 offset)
  | .I64Load32S _ offset => some (s.perform_load_extend 4 (fun v => .I64 (signExtend 32 64 v)) offset)
  | .I64Load32U _ offset => some (s.perform_load_extend 4 .I64 offset)
  | .I32Store _ offset => some (s.perform_store .i32 4 offset)
  | .I64Store _ offset => some (s.perform_store .i64 8 offset)
  | .F32Store _ offset => some (s.perform_store .f32 4 offset)
  | .F64Store _ offset => some (s.perform_store .f64 8 offset)
  | .I32Store8 _ offset => some (s.perform_store_wrap .i32 1 offset)
  | .I32Store16 _ offset => some (s.perform_store_wrap .i32 2 offset)
  | .I64Store8 _ offset => some (s.perform_store_wrap .i64 1 offset)
  | .I64Store16 _ offset => some (s.perform_store_wrap .i64 2 offset)
  | .I64Store32 _ offset => some (s.perform_store_wrap .i64 4 offset)
  | .CurrentMemory _ =>
    match s.memories.get? 0 with
    | none => some (s, some .NoMemory)
    | some mem => some (s.push (.I32 mem.page_count))
  | .GrowMemory _ =>
    match s.pop_as .i32 with
    | (s, .error e) => some (s, some e)
    | (s, .ok delta) =>
      match s.memories.get? 0 with
      | none => some (s, some .NoMemory)
      | some mem =>
        let res := mem.grow delta
        let s := { s with memories := s.memories.set 0 res.1 }
        some (s.push (.I32 (toUnsigned32 res.2)))
  | .I32Const bits => some (s.push (.I32 bits))
  | .I64Const bits => some (s.push (.I64 bits))
  | .F32Const bits => some (s.push (.F32 bits))
  | .F64Const bits => some (s.push (.F64 bits))
  | .I32Eqz => some (s.unop .i32 fun x => .I32 (boolVal (x == 0)))
  | .I32Eq => some (s.binop .i32 fun a b => .I32 (boolVal (a == b)))
  | .I32Ne => some (s.binop .i32 fun a b => .I32 (boolVal (a != b)))
  | .I32LtS => some (s.binop .i32 fun a b => .I32 (boolVal (toSigned32 a == toSigned32 b)))
  | .I32LtU => some (s.binop .i32 fun a b => .I32 (boolVal (a == b)))
  | .I32GtS => some (s.binop .i32 fun a b => .I32 (boolVal (decide (toSigned32 a > toSigned32 b))))
  | .I32GtU => some (s.binop .i32 fun a b => .I32 (boolVal (decide (a > b))))
  | .I32LeS => some (s.binop .i32 fun a b => .I32 (boolVal (decide (toSigned32 a ≤ toSigned32 b))))
  | .I32LeU => some (s.binop .i32 fun a b => .I32 (boolVal (decide (a ≤ b))))
  | .I32GeS => some (s.binop .i32 fun a b => .I32 (boolVal (decide (toSigned32 a ≥ toSigned32 b))))
  | .I32GeU => some (s.binop .i32 fun a b => .I32 (boolVal (decide (a ≥ b))))
  | .I64Eqz => some (s.unop .i64 fun x => .I32 (boolVal (x == 0)))
  | .I64Eq => some (s.binop .i64 fun a b => .I32 (boolVal (a == b)))
  | .I64Ne => some (s.binop .i64 fun a b => .I32 (boolVal (a != b)))
  | .I64LtS => some (s.binop .i64 fun a b => .I32 (boolVal (toSigned64 a == toSigned64 b)))
  | .I64LtU => some (s.binop .i64 fun a b => .I32 (boolVal (a == b)))
  | .I64GtS => some (s.binop .i64 fun a b => .I32 (boolVal (decide (toSigned64 a > toSigned64 b))))
  | .I64GtU => some (s.binop .i64 fun a b => .I32 (boolVal (decide (a > b))))
  | .I64LeS => some (s.binop .i64 fun a b => .I32 (boolVal (decide (toSigned64 a ≤ toSigned64 b))))
  | .I64LeU => some (s.binop .i64 fun a b => .I32 (boolVal (decide (a ≤ b))))
  | .I64GeS => some (s.binop .i64 fun a b => .I32 (boolVal (decide (toSigned64 a ≥ toSigned64 b))))
  | .I64GeU => some (s.binop .i64 fun a b => .I32 (boolVal (decide (a ≥ b))))
  | .F32Eq => some (s.binop .f32 fun a b => .I32 (boolVal (fs.f32eq a b)))
  | .F32Ne => some (s.binop .f32 fun a b => .I32 (boolVal (fs.f32ne a b)))
  | .F32Lt => some (s.binop .f32 fun a b => .I32 (boolVal (fs.f32lt a b)))
  | .F32Gt => some (s.binop .f32 fun a b => .I32 (boolVal (fs.f32gt a b)))
  | .F32Le => some (s.binop .f32 fun a b => .I32 (boolVal (fs.f32le a b)))
  | .F32Ge => some (s.binop .f32 fun a b => .I32 (boolVal (fs.f32ge a b)))
  | .F64Eq => some (s.binop .f64 fun a b => .I32 (boolVal (fs.f64eq a b)))
  | .F64Ne => some (s.binop .f64 fun a b => .I32 (boolVal (fs.f64ne a b)))
  | .F64Lt => some (s.binop .f64 fun a b => .I32 (boolVal (fs.f64lt a b)))
  | .F64Gt => some (s.binop .f64 fun a b => .I32 (boolVal (fs.f64gt a b)))
  | .F64Le => some (s.binop .f64 fun a b => .I32 (boolVal (fs.f64le a b)))
  | .F64Ge => some (s.binop .f64 fun a b => .I32 (boolVal (fs.f64ge a b)))
  | .I32Clz => some (s.unop .i32 fun x => .I32 (clzW 32 x))
  | .I32Ctz => some (s.unop .i32 fun x => .I32 (ctzW 32 x))
  | .I32Popcnt => some (s.unop .i32 fun x => .I32 (popcntW 32 x))
  | .I32Add => some (s.binop .i32 fun a b => .I32 (wadd32 a b))
  | .I32Sub => some (s.binop .i32 fun a b => .I32 (wsub32 a b))
  | .I32Mul => some (s.binop .i32 fun a b => .I32 (wmul32 a b))
  | .I32DivS => some (s.binop_try .i32 fun a b => (i32divS a b).map .I32)
  | .I32DivU => some (s.binop_try .i32 fun a b => (u32div a b).map .I32)
  | .I32RemS => some (s.binop_try .i32 fun a b => (i32remS a b).map .I32)
  | .I32RemU => some (s.binop_try .i32 fun a b => (u32rem a b).map .I32)
  | .I32And => some (s.binop .i32 fun a b => .I32 (a &&& b))
  | .I32Or => some (s.binop .i32 fun a b => .I32 (a ||| b))
  | .I32Xor => some (s.binop .i32 fun a b => .I32 (a ^^^ b))
  | .I32Shl => some (s.binop .i32 fun a b => .I32 (wshl32 a b))
  | .I32ShrS => some (s.binop .i32 fun a b => .I32 (shr32s a b))
  | .I32ShrU => some (s.binop .i32 fun a b => .I32 (shr32u a b))
  | .I32Rotl => some (s.binop .i32 fun a b => .I32 (rotl32 a b))
  | .I32Rotr => some (s.binop .i32 fun a b => .I32 (rotr32 a b))
  | .I64Clz => some (s.unop .i64 fun x => .I64 (clzW 64 x))
  | .I64Ctz => some (s.unop .i64 fun x => .I64 (ctzW 64 x))
  | .I64Popcnt => some (s.unop .i64 fun x => .I64 (popcntW 64 x))
  | .I64Add => some (s.binop .i64 fun a b => .I64 (wadd64 a b))
  | .I64Sub => some (s.binop .i64 fun a b => .I64 (wsub64 a b))
  | .I64Mul => some (s.binop .i64 fun a b => .I64 (wmul64 a b))
  | .I64DivS => some (s.binop_try .i64 fun a b => (i64divS a b).map .I64)
  | .I64DivU => some (s.binop_try .i64 fun a b => (u64div a b).map .I64)
  | .I64RemS => some (s.binop_try .i64 fun a b => (i64remS a b).map .I64)
  | .I64RemU => some (s.binop_try .i64 fun a b => (u64rem a b).map .I64)
  | .I64And => some (s.binop .i64 fun a b => .I64 (a &&& b))
  | .I64Or => some (s.binop .i64 fun a b => .I64 (a ||| b))
  | .I64Xor => some (s.binop .i64 fun a b => .I64 (a ^^^ b))
  | .I64Shl => some (s.binop .i64 fun a b => .I64 (wshl64 a b))
  | .I64ShrS => some (s.binop .i64 fun a b => .I64 (shr64s a b))
  | .I64ShrU => some (s.binop .i64 fun a b => .I64 (shr64u a b))
  | .I64Rotl => some (s.binop .i64 fun a b => .I64 (rotl64 a b))
  | .I64Rotr => some (s.binop .i64 fun a b => .I64 (rotr64 a b))
  | .F32Abs => some (s.unop .f32 fun x => .F32 (fs.f32abs x))
  | .F32Neg => some (s.unop .f32 fun x => .F32 (fs.f32neg x))
  | .F32Ceil => some (s.unop .f32 fun x => .F32 (fs.f32ceil x))
  | .F32Floor => some (s.unop .f32 fun x => .F32 (fs.f32floor x))
  | .F32Trunc => some (s.unop .f32 fun x => .F32 (fs.f32trunc x))
  | .F32Nearest => some (s.unop .f32 fun x => .F32 (fs.f32nearest x))
  | .F32Sqrt => some (s.unop .f32 fun x => .F32 (fs.f32sqrt x))
  | .F32Add => some (s.binop .f32 fun a b => .F32 (fs.f32add a b))
  | .F32Sub => some (s.binop .f32 fun a b => .F32 (fs.f32sub a b))
  | .F32Mul => some (s.binop .f32 fun a b => .F32 (fs.f32mul a b))
  | .F32Div => some (s.binop .f32 fun a b => .F32 (fs.f32div a b))
  | .F32Min => some (s.binop .f32 fun a b => .F32 (fs.f32min a b))
  | .F32Max => some (s.binop .f32 fun a b => .F32 (fs.f32max a b))
  | .F32Copysign => some (s.binop .f32 fun a b => .F32 (fs.f32copysign a b))
  | .F64Abs => some (s.unop .f64 fun x => .F64 (fs.f64abs x))
  | .F64Neg => some (s.unop .f64 fun x => .F64 (fs.f64neg x))
  | .F64Ceil => some (s.unop .f64 fun x => .F64 (fs.f64ceil x))
  | .F64Floor => some (s.unop .f64 fun x => .F64 (fs.f64floor x))
  | .F64Trunc => some (s.unop .f64 fun x => .F64 (fs.f64trunc x))
  | .F64Nearest => some (s.unop .f64 fun x => .F64 (fs.f64nearest x))
  | .F64Sqrt => some (s.unop .f64 fun x => .F64 (fs.f64sqrt x))
  | .F64Add => some (s.binop .f64 fun a b => .F64 (fs.f64add a b))
  | .F64Sub => some (s.binop .f64 fun a b => .F64 (fs.f64sub a b))
  | .F64Mul => some (s.binop .f64 fun a b => .F64 (fs.f64mul a b))
  | .F64Div => some (s.binop .f64 fun a b => .F64 (fs.f64div a b))
  | .F64Min => some (s.binop .f64 fun a b => .F64 (fs.f64min a b))
  | .F64Max => some (s.binop .f64 fun a b => .F64 (fs.f64max a b))
  | .F64Copysign => some (s.binop .f64 fun a b => .F64 (fs.f64copysign a b))
  | .I32WrapI64 => some (s.unop .i64 fun x => .I32 (x % u32size))
  | .I32TruncSF32 => some (s.unop_try .f32 fun x =>
      match fs.f32_trunc_i32 x with
      | none => .error .InvalidConversionToInt
      | some v => .ok (.I32 (toUnsigned32 v)))
  | .I32TruncUF32 => some (s.unop_try .f32 fun x =>
      match fs.f32_trunc_u32 x with
      | none => .error .InvalidConversionToInt
      | some v => .ok (.I32 v))
  | .I32TruncSF64 => some (s.unop_try .f64 fun x =>
      match fs.f64_trunc_i32 x with
      | none => .error .InvalidConversionToInt
      | some v => .ok (.I32 (toUnsigned32 v)))
  | .I32TruncUF64 => some (s.unop_try .f64 fun x =>
      match fs.f64_trunc_u32 x with
      | none => .error .InvalidConversionToInt
      | some v => .ok (.I32 v))
  | .I64ExtendSI32 => some (s.unop .i32 fun x => .I64 (signExtend 32 64 x))
  | .I64ExtendUI32 => some (s.unop .i32 fun x => .I64 x)
  | .I64TruncSF32 => some (s.unop_try .f32 fun x =>
      match fs.f32_trunc_i64 x with
      | none => .error .InvalidConversionToInt
      | some v => .ok (.I64 (toUnsigned64 v)))
  | .I64TruncUF32 => some (s.unop_try .f32 fun x =>
      match fs.f32_trunc_u64 x with
      | none => .error .InvalidConversionToInt
      | some v => .ok (.I64 v))
  | .I64TruncSF64 => some (s.unop_try .f64 fun x =>
      match fs.f64_trunc_i64 x with
      | none => .error .InvalidConversionToInt
      | some v => .ok (.I64 (toUnsigned64 v)))
  | .I64TruncUF64 => some (s.unop_try .f64 fun x =>
      match fs.f64_trunc_u64 x with
      | none => .error .InvalidConversionToInt
      | some v => .ok (.I64 v))
  | .F32ConvertSI32 => some (s.unop .i32 fun x => .F32 (fs.f32_from_int (toSigned32 x)))
  | .F32ConvertUI32 => some (s.unop .i32 fun x => .F32 (fs.f32_from_int x))
  | .F32ConvertSI64 => some (s.unop .i64 fun x => .F32 (fs.f32_from_int (toSigned64 x)))
  | .F32ConvertUI64 => some (s.unop .i64 fun x => .F32 (fs.f32_from_int x))
  | .F32DemoteF64 => some (s.unop .f64 fun x => .F32 (fs.f32_demote x))
  | .F64ConvertSI32 => some (s.unop .i32 fun x => .F64 (fs.f64_from_int (toSigned32 x)))
  | .F64ConvertUI32 => some (s.unop .i32 fun x => .F64 (fs.f64_from_int x))
  | .F64ConvertSI64 => some (s.unop .i64 fun x => .F64 (fs.f64_from_int (toSigned64 x)))
  | .F64ConvertUI64 => some (s.unop .i64 fun x => .F64 (fs.f64_from_int x))
  | .F64PromoteF32 => some (s.unop .f32 fun x => .F64 (fs.f64_promote x))
  | .I32ReinterpretF32 => some (s.unop .f32 fun x => .I32 x)
  | .I64ReinterpretF64 => some (s.unop .f64 fun x => .I64 x)
  | .F32ReinterpretI32 => some (s.unop .i32 fun x => .F32 x)
  | .F64ReinterpretI64 => some (s.unop .i64 fun x => .F64 x)

/-- The tail of `VM::execute_step_internal` after the instruction effect:
raise `ExecutionFinished` when the label stack emptied, then check for a
code breakpoint at the new `ip`.  A trap from the instruction effect skips
both checks (early `return Err` via `?`). -/
def stepAndCheck (fs : FloatSem) (s : VMState) (instr : Instruction) :
    Option (VMState × Option Trap) :=
  match stepInstr fs s instr with
  | none => none
  | some (s, some t) => some (s, some t)
  | some (s, none) =>
    if s.label_stack.isEmpty then some (s, some .ExecutionFinished)
    else
      match s.breakpoints.find_code s.ip with
      | some index => some (s, some (.BreakpointReached index))
      | none => some (s, none)

/-- `VM::execute_step_internal`: resolve the current function (`unwrap`
panics when the index is bad), reject imported functions, fetch the
instruction (an out-of-range fetch panics), advance `ip`, then run the
instruction and the post-checks. -/
def execute_step_internal (fs : FloatSem) (s : VMState) : Option (VMState × Option Trap) :=
  match s.module.get_func s.ip.func_index with
  | none => none
  | some func =>
    if func.imported then some (s, some (.UnsupportedCallToImportedFunction s.ip.func_index))
    else
      match func.instructions.get? s.ip.instr_index with
      | none => none
      | some instr =>
        stepAndCheck fs { s with ip := { s.ip with instr_index := s.ip.instr_index + 1 } } instr

/-- `VM::execute_step`: a pending sticky trap is returned as-is; any new
trap other than `BreakpointReached`/`WatchpointReached` is stored (made
sticky) before being returned. -/
def execute_step (fs : FloatSem) (s : VMState) : Option (VMState × Option Trap) :=
  match s.trap with
  | some t => some (s, some t)
  | none =>
    match execute_step_internal fs s with
    | none => none
    | some (s, none) => some (s, none)
    | some (s, some t) =>
      match t with
      | .BreakpointReached _ => some (s, some t)
      | .WatchpointReached _ => some (s, some t)
      | _ => some ({ s with trap := some t }, some t)

/-! ## Execution driver (`VM::run` and friends, `H` in the spec) -/

/-- The argument-pushing loop of `VM::run_func_paused`. -/
def pushArgs (s : VMState) : List Value → VMState × Option Trap
  | [] => (s, none)
  | arg :: rest =>
    match s.push arg with
    | (s, some t) => (s, some t)
    | (s, none) => pushArgs s rest

/-- `VM::run_func_paused`: clear the stacks and the sticky trap, reset
`ip`, push the arguments, then perform the call protocol. -/
def run_func_paused (s : VMState) (index : Nat) (args : List Value) : VMState × Option Trap :=
  let s := { s with function_stack := [], label_stack := [], value_stack := [],
                    trap := none, ip := ⟨0, 0⟩ }
  match pushArgs s args with
  | (s, some t) => (s, some t)
  | (s, none) => s.call index

/-- `VM::continue_execution`: loop `execute_step` until a trap.  The Rust
loop is unbounded; `fuel` bounds the modelled iteration count, `none`
meaning the loop was still running (or a step panicked). -/
def continue_execution (fs : FloatSem) : Nat → VMState → Option (VMState × Trap)
  | 0, _ => none
  | fuel + 1, s =>
    match execute_step fs s with
    | none => none
    | some (s, some t) => some (s, t)
    | some (s, none) => continue_execution fs fuel s

/-- `VM::run_func`: pause at the function entry, report a code breakpoint
already sitting on the entry point, otherwise continue execution. -/
def run_func (fs : FloatSem) (fuel : Nat) (s : VMState) (index : Nat) (args : List Value) :
    Option (VMState × Trap) :=
  match run_func_paused s index args with
  | (s, some t) => some (s, t)
  | (s, none) =>
    match s.breakpoints.find_code s.ip with
    | some bi => some (s, .BreakpointReached bi)
    | none => continue_execution fs fuel s

/-- `VM::run`. -/
def runVM (fs : FloatSem) (fuel : Nat) (s : VMState) : Option (VMState × Trap) :=
  match s.module.start_func with
  | some start_function => run_func fs fuel s start_function []
  | none => some (s, .NoStartFunction)

/-! ## Debugger facade (`debugger.rs`) -/

/-- `DebuggerError`. -/
inductive DebuggerError
  | InitError (e : InitError)
  | NoFileLoaded
  | NoRunningInstance
  | NoMemory
  | InvalidBreakpointPosition
  | InvalidWatchpointGlobal
  | Unimplemented
deriving DecidableEq, Repr

/-- `Debugger::backtrace`: the current `ip`, then `ret_addr` of the frames
`iter().skip(1).rev()` — i.e. every frame EXCEPT the root frame, innermost
first.  With the stack top at the head, Rust's `skip(1).rev()` is
`dropLast`. -/
def backtrace (vm : Option VMState) : Except DebuggerError (List CodePosition) :=
  match vm with
  | none => .error .NoRunningInstance
  | some vm => .ok (vm.ip :: vm.function_stack.dropLast.map fun f => f.ret_addr)


/-! ## Concrete states and helper definitions used by the verification -/

/-- Labels/frames/trap unchanged up to frame count: satisfied by every
value-stack/memory/global/local operation of the dispatcher. -/
def SameShape (s s' : VMState) : Prop :=
  s'.label_stack = s.label_stack ∧
  s'.function_stack.length = s.function_stack.length ∧
  s'.trap = s.trap

/-- Fold `add_breakpoint` over a list. -/
def addAll (bps : Breakpoints) : List Breakpoint → Breakpoints
  | [] => bps
  | b :: rest => addAll (bps.add_breakpoint b).1 rest

/-- Fold `delete_breakpoint` over a list of indices. -/
def deleteAll (bps : Breakpoints) : List Nat → Breakpoints
  | [] => bps
  | i :: rest => deleteAll (bps.delete_breakpoint i).1 rest

/-- A VM state whose value stack holds `a = 0` below `b = 1` (the top),
ready to execute a 32-bit comparison. -/
def c1s : VMState :=
  { module := ⟨[], none⟩, memories := [], tables := [], ip := ⟨0, 0⟩,
    globals := [], value_stack := [.I32 1, .I32 0], label_stack := [.Return],
    function_stack := [], trap := none, breakpoints := .new }

/-- The 64-bit variant of `c1s`. -/
def c1s64 : VMState :=
  { c1s with value_stack := [.I64 1, .I64 0] }

/-- A module with a single function whose body is just `End`. -/
def c4module : Module :=
  ⟨[{ func_type := ⟨[], none, 0⟩, locals := [], instructions := [.End],
      imported := false }], none⟩

/-- A fresh VM on `c4module`. -/
def c4s0 : VMState :=
  { module := c4module, memories := [], tables := [], ip := ⟨0, 0⟩,
    globals := [], value_stack := [], label_stack := [], function_stack := [],
    trap := none, breakpoints := .new }

/-- The state just after `run_func_paused c4s0 0 []`. -/
def c4sP : VMState :=
  { c4s0 with label_stack := [.Return], function_stack := [⟨⟨0, 0⟩, []⟩] }

/-- The finished state: the label stack emptied but the root frame was
retained. -/
def c4s1 : VMState :=
  { c4sP with
    ip := ⟨0, 1⟩,
    label_stack := [],
    trap := some .ExecutionFinished }

/-- A VM state carrying a sticky `DivisionByZero`. -/
def c5ws : VMState :=
  { module := ⟨[], none⟩, memories := [], tables := [], ip := ⟨0, 0⟩,
    globals := [], value_stack := [], label_stack := [], function_stack := [],
    trap := some .DivisionByZero, breakpoints := .new }

/-- Registry with a write watchpoint at address 16 (index 0) and a code
breakpoint at `(0,3)` (index 1). -/
def c6bps : Breakpoints :=
  ((Breakpoints.new.add_breakpoint (.Memory .Write 16)).1.add_breakpoint
    (.Code ⟨0, 3⟩)).1

/-- Module whose function stores 7 at address 16 and then runs a `Nop` at
position `(0,3)` — the position carrying the code breakpoint. -/
def c6module : Module :=
  ⟨[{ func_type := ⟨[], none, 0⟩, locals := [],
      instructions := [.I32Const 16, .I32Const 7, .I32Store 0 0, .Nop, .End],
      imported := false }], none⟩

/-- Fresh VM on `c6module` with a 32-byte memory and `c6bps`. -/
def c6s0 : VMState :=
  { module := c6module, memories := [Memory.new ⟨32, none⟩], tables := [],
    ip := ⟨0, 0⟩, globals := [], value_stack := [], label_stack := [],
    function_stack := [], trap := none, breakpoints := c6bps }

/-- After `run_func_paused c6s0 0 []`. -/
def c6sP : VMState :=
  { c6s0 with label_stack := [.Return], function_stack := [⟨⟨0, 0⟩, []⟩] }

/-- After executing `I32Const 16`. -/
def c6s1 : VMState :=
  { c6sP with ip := ⟨0, 1⟩, value_stack := [.I32 16] }

/-- After executing `I32Const 7`. -/
def c6s2 : VMState :=
  { c6s1 with ip := ⟨0, 2⟩, value_stack := [.I32 7, .I32 16] }

/-- After the store: bytes written, value stack drained, `ip` sitting on the
breakpoint position `(0,3)`; this is the state returned together with
`WatchpointReached 0`. -/
def c6s3 : VMState :=
  { c6s2 with
    ip := ⟨0, 3⟩,
    value_stack := [],
    memories := [{ data := listOverwrite (List.replicate 32 0) 16 (toLE 4 7),
                   limits := ⟨32, none⟩ }] }

/-- After executing the `Nop` at `(0,3)` — no breakpoint was reported. -/
def c6s4 : VMState :=
  { c6s3 with ip := ⟨0, 4⟩ }

/-- Registry for the `c6_amended` witness: a single code breakpoint at
`(0,1)`. -/
def c6wbps : Breakpoints :=
  (Breakpoints.new.add_breakpoint (.Code ⟨0, 1⟩)).1

/-- A running VM about to execute the `Nop` at `(0,0)`, with a code
breakpoint on the following position `(0,1)`. -/
def c6ws : VMState :=
  { module := ⟨[{ func_type := ⟨[], none, 0⟩,
                  locals := [],
                  instructions := [.Nop, .Nop, .End],
                  imported := false }], none⟩,
    memories := [], tables := [], ip := ⟨0, 0⟩, globals := [],
    value_stack := [], label_stack := [.Return],
    function_stack := [⟨⟨0, 0⟩, []⟩], trap := none, breakpoints := c6wbps }

/-- Registry with a read watchpoint (index 0) and a write watchpoint
(index 1) on global 5. -/
def c7bps : Breakpoints :=
  ((Breakpoints.new.add_breakpoint (.Global .Read 5)).1.add_breakpoint
    (.Global .Write 5)).1

/-- A VM with two frames: an innermost frame with return address `(7,7)`
and the root frame with the synthetic return address `(0,0)`. -/
def c9vm : VMState :=
  { module := ⟨[], none⟩, memories := [], tables := [], ip := ⟨1, 5⟩,
    globals := [], value_stack := [], label_stack := [.Return, .Return],
    function_stack := [⟨⟨7, 7⟩, []⟩, ⟨⟨0, 0⟩, []⟩], trap := none,
    breakpoints := .new }

/-- A VM whose value stack top is the base address `2^32 - 4`; together
with immediate offset 8 the effective address wraps to 4. -/
def c10s : VMState :=
  { module := ⟨[], none⟩, memories := [{ data := List.replicate 32 0, limits := ⟨32, none⟩ }],
    tables := [], ip := ⟨0, 0⟩, globals := [],
    value_stack := [.I32 (u32size - 4)], label_stack := [.Return],
    function_stack := [], trap := none, breakpoints := .new }

/-- Store variant of `c10s`: value 7 above the wrapped base address. -/
def c10sStore : VMState :=
  { c10s with value_stack := [.I32 7, .I32 (u32size - 4)] }


/-! ## Small arithmetic and list lemmas -/

theorem vecResize_of_le (l : List Nat) (n : Nat) (h : l.length ≤ n) :
    vecResize l n = l ++ List.replicate (n - l.length) 0 := by
  unfold vecResize
  split
  · have hn : n = l.length := le_antisymm (by assumption) h
    subst hn
    simp
  · rfl

/-! ## Claim C2 -/

/-- Claim C2 (code bug): the spec invariant `len = page_count * PAGE_SIZE`
is already broken right after construction: `Memory::new` allocates
`initial` BYTES (`vec![0; limits.initial() as usize]`) although `initial`
counts pages, so a memory declared with one page gets a 1-byte buffer whose
`page_count()` is 0. -/
theorem c2_memory_new_breaks_invariant :
    Memory.from_module [⟨1, none⟩] [] = some (.ok [Memory.new ⟨1, none⟩]) ∧
    (Memory.new ⟨1, none⟩).data.length = 1 ∧
    (Memory.new ⟨1, none⟩).page_count * PAGE_SIZE = 0 ∧
    (Memory.new ⟨1, none⟩).data.length ≠ (Memory.new ⟨1, none⟩).page_count * PAGE_SIZE :=
  ⟨rfl, by decide, by decide, by decide⟩

/-! ## Claim C7 -/

/-- Claim C7 (counterexample): with a read watchpoint (index 0) and a write
watchpoint (index 1) on global 5, a WRITE query returns index 0 — a
breakpoint whose trigger `Read` does not include writes, because
`find_global` never inspects the trigger of the breakpoint it returns. -/
theorem c7_find_ignores_trigger_counterexample :
    c7bps.find_global 5 true = some 0 ∧
    (0, Breakpoint.Global .Read 5) ∈ c7bps.index_map ∧
    BreakpointTrigger.Read.is_write = false := by
  decide

/-- Claim C7 (amended): whenever `find_global` (resp. `find_memory`)
returns `Some i`, breakpoint `i` is a `Global` breakpoint with the queried
global index (resp. a `Memory` breakpoint whose address lies in
`[start, start + len)`, the bound taken with wrapping `u32` addition) — but
its own trigger is NOT checked and need not include the queried access
kind. -/
theorem c7_find_index_map_search (g i : Nat) (m : List (Nat × Breakpoint))
    (h : m.findSome? (fun p =>
        match p.2 with
        | Breakpoint.Global _ break_global => if break_global = g then some p.1 else none
        | _ => none) = some i) :
    ∃ t, (i, Breakpoint.Global t g) ∈ m := by
  obtain ⟨p, hp, hf⟩ := List.exists_of_findSome?_eq_some h
  obtain ⟨idx, bp⟩ := p
  cases bp with
  | Code pos => simp at hf
  | Memory t addr => simp at hf
  | Global t gP =>
    by_cases hg : gP = g
    · simp only [hg, if_pos] at hf
      obtain rfl := Option.some.inj hf
      subst hg
      exact ⟨t, hp⟩
    · simp [hg] at hf

theorem c7_find_index_map_search_mem (a i : Nat) (m : List (Nat × Breakpoint))
    (h : m.findSome? (fun p =>
        match p.2 with
        | Breakpoint.Memory _ break_addr => if break_addr = a then some p.1 else none
        | _ => none) = some i) :
    ∃ t, (i, Breakpoint.Memory t a) ∈ m := by
  obtain ⟨p, hp, hf⟩ := List.exists_of_findSome?_eq_some h
  obtain ⟨idx, bp⟩ := p
  cases bp with
  | Code pos => simp at hf
  | Global t g => simp at hf
  | Memory t aP =>
    by_cases ha : aP = a
    · simp only [ha, if_pos] at hf
      obtain rfl := Option.some.inj hf
      subst ha
      exact ⟨t, hp⟩
    · simp [ha] at hf

/-- Claim C7 (amended): whenever `find_global` (resp. `find_memory`)
returns `Some i`, breakpoint `i` is a `Global` breakpoint with the queried
global index (resp. a `Memory` breakpoint whose address lies in
`[start, start + len)`, the bound taken with wrapping `u32` addition) — but
its own trigger is NOT checked and need not include the queried access
kind. -/
theorem c7_find_matches_watch (bps : Breakpoints) :
    (∀ g w i, bps.find_global g w = some i →
      ∃ t, (i, Breakpoint.Global t g) ∈ bps.index_map) ∧
    (∀ start len w i, bps.find_memory start len w = some i →
      ∃ t addr, (i, Breakpoint.Memory t addr) ∈ bps.index_map ∧
        start ≤ addr ∧ addr < (start + len) % u32size) := by
  constructor
  · intro g w i h
    simp only [Breakpoints.find_global] at h
    split at h
    all_goals split at h
    any_goals simp at h
    all_goals exact c7_find_index_map_search g i bps.index_map h
  · intro start len w i h
    simp only [Breakpoints.find_memory] at h
    have hsplit : ∃ watchpoints : List Nat, watchpoints.findSome? (fun addr =>
        if start ≤ addr ∧ addr < (start + len) % u32size then
          bps.index_map.findSome? fun p =>
            match p.2 with
            | Breakpoint.Memory _ break_addr => if break_addr = addr then some p.1 else none
            | _ => none
        else none) = some i := by
      by_cases hw : w = true
      · exact ⟨bps.memory_write, by rw [if_pos hw] at h; exact h⟩
      · exact ⟨bps.memory_read, by rw [if_neg hw] at h; exact h⟩
    obtain ⟨watchpoints, hws⟩ := hsplit
    obtain ⟨addr, hmem, hf⟩ := List.exists_of_findSome?_eq_some hws
    by_cases hcond : start ≤ addr ∧ addr < (start + len) % u32size
    · rw [if_pos hcond] at hf
      obtain ⟨t, ht⟩ := c7_find_index_map_search_mem addr i bps.index_map hf
      exact ⟨t, addr, ht, hcond.1, hcond.2⟩
    · rw [if_neg hcond] at hf
      simp at hf

/-- Witness for C7 amended: applied to `c7bps` and the write query on
global 5. -/
theorem c7_find_matches_watch_witness :
    ∃ t, (0, Breakpoint.Global t 5) ∈ c7bps.index_map :=
  (c7_find_matches_watch c7bps).1 5 true 0 (by decide)


/-! ## Claim C8 -/

theorem add_breakpoint_next_index (bps : Breakpoints) (b : Breakpoint) :
    (bps.add_breakpoint b).2 = bps.next_index ∧
    (bps.add_breakpoint b).1.next_index = (bps.next_index + 1) % u32size := by
  cases b with
  | Code pos => simp [Breakpoints.add_breakpoint]
  | Memory t a =>
    simp only [Breakpoints.add_breakpoint]
    split <;> split <;> simp
  | Global t g =>
    simp only [Breakpoints.add_breakpoint]
    split <;> split <;> simp

theorem delete_breakpoint_next_index (bps : Breakpoints) (i : Nat) :
    (bps.delete_breakpoint i).1.next_index = bps.next_index := by
  unfold Breakpoints.delete_breakpoint
  repeat' split
  all_goals rfl

theorem addAll_next_index (adds : List Breakpoint) (bps : Breakpoints)
    (h : bps.next_index < u32size) :
    (addAll bps adds).next_index = (bps.next_index + adds.length) % u32size := by
  induction adds generalizing bps with
  | nil =>
    simp only [addAll, List.length_nil, Nat.add_zero]
    exact (Nat.mod_eq_of_lt h).symm
  | cons b rest ih =>
    rw [addAll, ih ((bps.add_breakpoint b).1)
      (by rw [(add_breakpoint_next_index bps b).2]; exact Nat.mod_lt _ (by decide)),
      (add_breakpoint_next_index bps b).2, Nat.mod_add_mod, List.length_cons]
    congr 1
    omega

theorem deleteAll_next_index (dels : List Nat) (bps : Breakpoints) :
    (deleteAll bps dels).next_index = bps.next_index := by
  induction dels generalizing bps with
  | nil => rfl
  | cons i rest ih => rw [deleteAll, ih, delete_breakpoint_next_index]

/-- Claim C8 (counterexample): the index counter is a `u32` that wraps on
increment, so after `2^32` adds to a fresh registry the next fresh index is
back at 0 — NOT the original next plus `N` — and the very next add returns
the same index 0 the first add returned: an index IS reused. -/
theorem c8_index_wrap_counterexample :
    (addAll Breakpoints.new (List.replicate u32size (.Code ⟨0, 0⟩))).next_index ≠
      Breakpoints.new.next_index +
        (List.replicate u32size (Breakpoint.Code ⟨0, 0⟩)).length ∧
    ((addAll Breakpoints.new (List.replicate u32size (.Code ⟨0, 0⟩))).add_breakpoint
        (.Code ⟨0, 0⟩)).2 =
      (Breakpoints.new.add_breakpoint (.Code ⟨0, 0⟩)).2 := by
  have h := addAll_next_index (List.replicate u32size (.Code ⟨0, 0⟩))
    Breakpoints.new (by decide)
  rw [List.length_replicate] at h
  have hz : (addAll Breakpoints.new
      (List.replicate u32size (.Code ⟨0, 0⟩))).next_index = 0 := by
    rw [h]
    simp [Breakpoints.new]
  constructor
  · rw [hz, List.length_replicate]
    simp [Breakpoints.new, u32size]
  · rw [(add_breakpoint_next_index _ _).1, (add_breakpoint_next_index _ _).1, hz]
    rfl

/-- Claim C8 (amended): `add_breakpoint` returns the current counter and
increments it modulo `2^32` (the counter is a `u32`), `delete_breakpoint`
and `clear` never change it, and adding `N` breakpoints then deleting any
list of indices leaves the next fresh index at `(original next + N) mod
2^32` — which equals the original next plus `N` exactly as long as that sum
stays below `2^32`. -/
theorem c8_indices_amended :
    (∀ (bps : Breakpoints) b, (bps.add_breakpoint b).2 = bps.next_index ∧
      (bps.add_breakpoint b).1.next_index = (bps.next_index + 1) % u32size) ∧
    (∀ (bps : Breakpoints) i, (bps.delete_breakpoint i).1.next_index = bps.next_index) ∧
    (∀ bps : Breakpoints, bps.clear.next_index = bps.next_index) ∧
    (∀ (bps : Breakpoints) adds dels, bps.next_index < u32size →
      (deleteAll (addAll bps adds) dels).next_index =
        (bps.next_index + adds.length) % u32size) ∧
    (∀ (bps : Breakpoints) adds dels, bps.next_index + adds.length < u32size →
      (deleteAll (addAll bps adds) dels).next_index =
        bps.next_index + adds.length) :=
  ⟨fun bps b => add_breakpoint_next_index bps b,
   fun bps i => delete_breakpoint_next_index bps i,
   fun _ => rfl,
   fun bps adds dels h => by rw [deleteAll_next_index, addAll_next_index adds bps h],
   fun bps adds dels h => by
     rw [deleteAll_next_index,
       addAll_next_index adds bps (Nat.lt_of_le_of_lt (Nat.le_add_right _ _) h)]
     exact Nat.mod_eq_of_lt h⟩

/-- Witness for C8 amended: two adds and a delete on a fresh registry leave
the next fresh index at 2. -/
theorem c8_indices_amended_witness :
    (deleteAll (addAll Breakpoints.new [.Code ⟨0, 0⟩, .Code ⟨0, 1⟩]) [0]).next_index = 2 :=
  c8_indices_amended.2.2.2.2 Breakpoints.new [.Code ⟨0, 0⟩, .Code ⟨0, 1⟩] [0] (by decide)

/-! ## Claim C9 -/

/-- Claim C9 (counterexample): with two frames on the function stack,
`backtrace` returns only the `ip` and the innermost frame's return address:
the root frame's entry (here `(0,0)`) is skipped (`iter().skip(1)`), so the
result does NOT contain one entry per frame after the ip. -/
theorem c9_backtrace_skips_root_counterexample :
    backtrace (some c9vm) = .ok [⟨1, 5⟩, ⟨7, 7⟩] ∧
    c9vm.function_stack.map (fun f => f.ret_addr) = [⟨7, 7⟩, ⟨0, 0⟩] :=
  ⟨rfl, rfl⟩

/-- Claim C9 (amended): when a VM is present and at least one frame exists,
`backtrace` returns the current `ip` followed by the return addresses of
every frame EXCEPT the root frame, innermost first — so the result has
exactly `|function_stack|` entries (not `|function_stack| + 1`). -/
theorem c9_backtrace_amended (vm : VMState) (h : vm.function_stack ≠ []) :
    ∃ bt, backtrace (some vm) = .ok bt ∧
      bt.length = vm.function_stack.length ∧
      bt.head? = some vm.ip ∧
      ∀ k, k + 1 < bt.length →
        bt.get? (k + 1) = (vm.function_stack.get? k).map fun f => f.ret_addr := by
  refine ⟨_, rfl, ?_, rfl, ?_⟩
  · have hpos : 0 < vm.function_stack.length := List.length_pos.mpr h
    simp [List.length_dropLast]
    omega
  · intro k hk
    have hk' : k < vm.function_stack.length - 1 := by
      simp [List.length_dropLast] at hk
      omega
    simp only [List.get?_cons_succ, List.get?_map]
    rw [List.dropLast_eq_take, List.get?_take hk']

/-- Witness for C9 amended at the two-frame state `c9vm`. -/
theorem c9_backtrace_amended_witness :
    ∃ bt, backtrace (some c9vm) = .ok bt ∧
      bt.length = c9vm.function_stack.length ∧
      bt.head? = some c9vm.ip ∧
      ∀ k, k + 1 < bt.length →
        bt.get? (k + 1) = (c9vm.function_stack.get? k).map fun f => f.ret_addr :=
  c9_backtrace_amended c9vm (by decide)

/-! ## Claim C1 -/

/-- Claim C1 (code bug): the dispatcher implements `i32.lt_s`, `i32.lt_u`,
`i64.lt_s` and `i64.lt_u` with `==` instead of `<`.  With `a = 0` (pushed
first) and `b = 1` (stack top) every one of the four pushes `0`, although
`a < b` holds both signed and unsigned, so the Wasm contract requires
`1`. -/
theorem c1_lt_instructions_compute_equality :
    stepInstr trivialFloatSem c1s .I32LtS = some ({ c1s with value_stack := [.I32 0] }, none) ∧
    stepInstr trivialFloatSem c1s .I32LtU = some ({ c1s with value_stack := [.I32 0] }, none) ∧
    stepInstr trivialFloatSem c1s64 .I64LtS = some ({ c1s64 with value_stack := [.I32 0] }, none) ∧
    stepInstr trivialFloatSem c1s64 .I64LtU = some ({ c1s64 with value_stack := [.I32 0] }, none) ∧
    toSigned32 0 < toSigned32 1 ∧ toSigned64 0 < toSigned64 1 ∧ (0 : Nat) < 1 :=
  ⟨rfl, rfl, rfl, rfl, by decide, by decide, by decide⟩



/-! ## Claim C3 -/
/-- Claim C3 (counterexample): growing an empty memory (0 pages, no
declared maximum) by exactly `delta = 65,536` pages must succeed and append
`delta * PAGE_SIZE` zero bytes per the claim (the cap is not exceeded), but
the `u32` byte product `65,536 * PAGE_SIZE` wraps to `0`, so the code
"succeeds" (returns the previous page count `0`) while appending nothing —
not `delta * PAGE_SIZE` bytes, and for larger deltas the wrapping page sum
likewise slips past the bounds check instead of failing with `-1`. -/
theorem c3_grow_overflow_counterexample :
    ¬ (Memory.new ⟨0, none⟩).page_count + 65536 > MEMORY_MAX_PAGES ∧
    (Memory.new ⟨0, none⟩).grow 65536 = (Memory.new ⟨0, none⟩, 0) ∧
    65536 * PAGE_SIZE ≠ 0 :=
  ⟨by decide, by decide, by decide⟩

/-- Claim C3 (amended): restricted to page sums that fit in 32 bits, `grow`
fails with `-1` and leaves the buffer untouched exactly when
`page_count + delta` exceeds the declared maximum (or the cap of 65,536
pages when none is declared); and when it is within bounds AND strictly
below 65,536 pages (so the `u32` byte product does not wrap) AND the buffer
is page-aligned, it returns the previous page count and appends exactly
`delta * PAGE_SIZE` zero bytes.  At the boundary `page_count + delta =
65,536` and beyond 32 bits the code instead truncates the buffer. -/
theorem c3_grow_amended (m : Memory) (delta : Nat)
    (hsum : m.page_count + delta < u32size) :
    (m.page_count + delta > m.limits.maximum.getD MEMORY_MAX_PAGES →
      m.grow delta = (m, -1)) ∧
    (m.page_count + delta ≤ m.limits.maximum.getD MEMORY_MAX_PAGES →
      m.page_count + delta < MEMORY_MAX_PAGES →
      m.data.length = m.page_count * PAGE_SIZE →
      m.grow delta =
        ({ m with data := m.data ++ List.replicate (delta * PAGE_SIZE) 0 },
          toSigned32 m.page_count)) := by
  have hmod : (m.page_count + delta) % u32size = m.page_count + delta :=
    Nat.mod_eq_of_lt hsum
  constructor
  · intro hgt
    cases hm : m.limits.maximum with
    | some max =>
      rw [hm] at hgt
      simp only [Option.getD_some] at hgt
      simp [Memory.grow, hmod, hm, hgt]
    | none =>
      rw [hm] at hgt
      simp only [Option.getD_none] at hgt
      simp [Memory.grow, hmod, hm, hgt]
  · intro hle hcap halign
    have hbytes : (m.page_count + delta) * PAGE_SIZE < u32size := by
      have : (m.page_count + delta) * PAGE_SIZE < MEMORY_MAX_PAGES * PAGE_SIZE :=
        (Nat.mul_lt_mul_right (by decide : 0 < PAGE_SIZE)).mpr hcap
      calc (m.page_count + delta) * PAGE_SIZE < MEMORY_MAX_PAGES * PAGE_SIZE := this
        _ ≤ u32size := by decide
    have hresize : vecResize m.data ((m.page_count + delta) * PAGE_SIZE % u32size) =
        m.data ++ List.replicate (delta * PAGE_SIZE) 0 := by
      rw [Nat.mod_eq_of_lt hbytes,
        vecResize_of_le _ _ (by rw [halign]; exact Nat.mul_le_mul_right _ (Nat.le_add_right _ _)),
        halign]
      congr 1
      rw [← Nat.sub_mul]
      simp
    cases hm : m.limits.maximum with
    | some max =>
      rw [hm] at hle
      simp only [Option.getD_some] at hle
      simp [Memory.grow, hmod, hm, Nat.not_lt.mpr hle, hresize]
    | none =>
      rw [hm] at hle
      simp only [Option.getD_none] at hle
      simp [Memory.grow, hmod, hm, Nat.not_lt.mpr hle, hresize]

/-- Witness for C3 amended: a successful `grow` by one page from an empty
memory appends exactly one page of zeros and returns the previous page
count. -/
theorem c3_grow_amended_witness :
    (Memory.new ⟨0, none⟩).grow 1 =
      ({ Memory.new ⟨0, none⟩ with
          data := (Memory.new ⟨0, none⟩).data ++ List.replicate (1 * PAGE_SIZE) 0 },
        toSigned32 (Memory.new ⟨0, none⟩).page_count) :=
  (c3_grow_amended (Memory.new ⟨0, none⟩) 1 (by decide)).2 (by decide) (by decide) (by decide)



/-! ## Claim C10 -/

/-- Closed form of `perform_load` for a popped `i32` base address. -/
theorem perform_load_eq (s : VMState) (base : Nat) (rest : List Value) (mem : Memory)
    (width offset : Nat) (mk : Nat → Value)
    (hstack : s.value_stack = .I32 base :: rest)
    (hmem : s.memories.get? 0 = some mem) :
    s.perform_load width mk offset =
      (let address := (base + offset) % u32size
       let val := mk (fromLE ((mem.data.drop address).take width))
       let sP : VMState := { s with value_stack := val :: rest }
       if address + width ≤ mem.data.length then
         if rest.length ≥ VALUE_STACK_LIMIT then
           ({ s with value_stack := rest }, some .ValueStackOverflow)
         else
           match sP.breakpoints.find_memory address width false with
           | some bi => (sP, some (.WatchpointReached bi))
           | none => (sP, none)
       else
         ({ s with value_stack := rest },
           some (.MemoryAccessOutOfRange ((address + width) % u32size)))) := by
  have hpop : s.pop_as .i32 = ({ s with value_stack := rest }, .ok base) := by
    simp [VMState.pop_as, VMState.pop, hstack, Value.toPayload]
  rw [VMState.perform_load, hpop]
  simp only [hmem]
  by_cases hb : (base + offset) % u32size + width ≤ mem.data.length
  · simp only [Memory.load, if_pos hb, VMState.push]
    by_cases hl : rest.length ≥ VALUE_STACK_LIMIT
    · simp [hl]
    · simp [hl]
  · simp [Memory.load, if_neg hb, hb]

theorem perform_store_i32_eq (s : VMState) (base v : Nat) (rest : List Value) (mem : Memory)
    (width offset : Nat)
    (hstack : s.value_stack = .I32 v :: .I32 base :: rest)
    (hmem : s.memories.get? 0 = some mem) :
    s.perform_store .i32 width offset =
      (let address := (base + offset) % u32size
       let memP : Memory := { mem with data := listOverwrite mem.data address (toLE width v) }
       let sP : VMState := { s with value_stack := rest, memories := s.memories.set 0 memP }
       if address + width ≤ mem.data.length then
         match sP.breakpoints.find_memory address width true with
         | some bi => (sP, some (.WatchpointReached bi))
         | none => (sP, none)
       else
         ({ s with value_stack := rest },
           some (.MemoryAccessOutOfRange ((address + width) % u32size)))) := by
  have hpop1 : s.pop_as .i32 = ({ s with value_stack := .I32 base :: rest }, .ok v) := by
    simp [VMState.pop_as, VMState.pop, hstack, Value.toPayload]
  have hpop2 : ({ s with value_stack := .I32 base :: rest } : VMState).pop_as .i32 =
      ({ s with value_stack := rest }, .ok base) := by
    simp [VMState.pop_as, VMState.pop, Value.toPayload]
  rw [VMState.perform_store, hpop1]
  simp only [hpop2, hmem]
  by_cases hb : (base + offset) % u32size + width ≤ mem.data.length
  · simp [Memory.store, if_pos hb]
  · simp [Memory.store, if_neg hb, hb]

/-- Claim C10: the effective address of a load or store is the 32-bit
wrapping sum of the popped base and the immediate offset, and the bounds
check is applied to this wrapped address: when the wrapped address plus the
access width is within the buffer the access succeeds (never
`MemoryAccessOutOfRange`, though a watchpoint may still be reported), and
it fails with `MemoryAccessOutOfRange` exactly when the wrapped range
exceeds the buffer length — regardless of whether the true sum
`base + offset` fits in 32 bits, so an overflowing base-plus-offset can
reach a low in-range address. -/
theorem c10_effective_address_wraps (s s2 : VMState) (base offset width v : Nat)
    (mem : Memory) (rest rest2 : List Value)
    (hstack : s.value_stack = .I32 base :: rest)
    (hmem : s.memories.get? 0 = some mem)
    (hstack2 : s2.value_stack = .I32 v :: .I32 base :: rest2)
    (hmem2 : s2.memories.get? 0 = some mem) :
    ((base + offset) % u32size + width ≤ mem.data.length →
      rest.length < VALUE_STACK_LIMIT →
      ∃ s' r, s.perform_load width .I32 offset = (s', r) ∧
        s'.value_stack =
          .I32 (fromLE ((mem.data.drop ((base + offset) % u32size)).take width)) :: rest ∧
        ∀ a, r ≠ some (.MemoryAccessOutOfRange a)) ∧
    (mem.data.length < (base + offset) % u32size + width →
      s.perform_load width .I32 offset =
        ({ s with value_stack := rest },
          some (.MemoryAccessOutOfRange (((base + offset) % u32size + width) % u32size)))) ∧
    ((base + offset) % u32size + width ≤ mem.data.length →
      ∃ s' r, s2.perform_store .i32 width offset = (s', r) ∧
        s'.memories = s2.memories.set 0
          { mem with
            data := listOverwrite mem.data ((base + offset) % u32size) (toLE width v) } ∧
        ∀ a, r ≠ some (.MemoryAccessOutOfRange a)) ∧
    (mem.data.length < (base + offset) % u32size + width →
      s2.perform_store .i32 width offset =
        ({ s2 with value_stack := rest2 },
          some (.MemoryAccessOutOfRange (((base + offset) % u32size + width) % u32size)))) := by
  rw [perform_load_eq s base rest mem width offset .I32 hstack hmem,
    perform_store_i32_eq s2 base v rest2 mem width offset hstack2 hmem2]
  refine ⟨?_, ?_, ?_, ?_⟩
  · intro hin hlen
    simp only [if_pos hin, if_neg (Nat.not_le.mpr hlen)]
    split
    · exact ⟨_, _, rfl, rfl, by simp⟩
    · exact ⟨_, _, rfl, rfl, by simp⟩
  · intro hout
    simp only [if_neg (Nat.not_le.mpr hout)]
  · intro hin
    simp only [if_pos hin]
    split
    · exact ⟨_, _, rfl, by simp, by simp⟩
    · exact ⟨_, _, rfl, by simp, by simp⟩
  · intro hout
    simp only [if_neg (Nat.not_le.mpr hout)]


/-- Witness for C10: with base `2^32 - 4` and offset `8` the true sum is
`2^32 + 4`; the effective address wraps to `4`, in range of the 32-byte
buffer, so the load succeeds instead of trapping. -/
theorem c10_effective_address_wraps_witness :
    ∃ s' r, c10s.perform_load 4 .I32 8 = (s', r) ∧
      s'.value_stack =
        .I32 (fromLE (((List.replicate 32 0 : List Nat).drop
          ((u32size - 4 + 8) % u32size)).take 4)) :: [] ∧
      ∀ a, r ≠ some (.MemoryAccessOutOfRange a) :=
  (c10_effective_address_wraps c10s c10sStore (u32size - 4) 8 4 7
      { data := List.replicate 32 0, limits := ⟨32, none⟩ } [] []
      rfl rfl rfl rfl).1 (by decide) (by decide)


/-! ## Shape lemmas: value operations leave labels, frame count and trap alone -/

theorem sameShape_refl (s : VMState) : SameShape s s := ⟨rfl, rfl, rfl⟩

theorem sameShape_trans {s1 s2 s3 : VMState} (h1 : SameShape s1 s2) (h2 : SameShape s2 s3) :
    SameShape s1 s3 :=
  ⟨h2.1.trans h1.1, h2.2.1.trans h1.2.1, h2.2.2.trans h1.2.2⟩

theorem push_shape (s : VMState) (v : Value) : SameShape s (s.push v).1 := by
  rw [VMState.push]
  split
  · exact sameShape_refl s
  · exact ⟨rfl, rfl, rfl⟩

theorem pop_shape (s : VMState) : SameShape s (s.pop).1 := by
  rw [VMState.pop]
  cases s.value_stack
  · exact sameShape_refl s
  · exact ⟨rfl, rfl, rfl⟩

theorem pop_as_shape (s : VMState) (t : ValueType) : SameShape s (s.pop_as t).1 := by
  rcases hp : s.pop with ⟨s1, r1⟩
  have h1 : SameShape s s1 := by have := pop_shape s; rw [hp] at this; exact this
  cases r1 with
  | error e => simp only [VMState.pop_as, hp]; exact h1
  | ok v =>
    rcases hv : v.toPayload t with _ | n <;>
      simp only [VMState.pop_as, hp, hv] <;> exact h1

theorem unop_shape (s : VMState) (t : ValueType) (f : Nat → Value) :
    SameShape s (s.unop t f).1 := by
  rcases hp : s.pop_as t with ⟨s1, r1⟩
  have h1 : SameShape s s1 := by have := pop_as_shape s t; rw [hp] at this; exact this
  cases r1 with
  | error e => simp only [VMState.unop, hp]; exact h1
  | ok x =>
    simp only [VMState.unop, hp]
    exact sameShape_trans h1 (push_shape s1 (f x))

theorem unop_try_shape (s : VMState) (t : ValueType) (f : Nat → Except Trap Value) :
    SameShape s (s.unop_try t f).1 := by
  rcases hp : s.pop_as t with ⟨s1, r1⟩
  have h1 : SameShape s s1 := by have := pop_as_shape s t; rw [hp] at this; exact this
  cases r1 with
  | error e => simp only [VMState.unop_try, hp]; exact h1
  | ok x =>
    cases hf : f x with
    | error e => simp only [VMState.unop_try, hp, hf]; exact h1
    | ok v =>
      simp only [VMState.unop_try, hp, hf]
      exact sameShape_trans h1 (push_shape s1 v)

theorem binop_shape (s : VMState) (t : ValueType) (f : Nat → Nat → Value) :
    SameShape s (s.binop t f).1 := by
  rcases hp : s.pop_as t with ⟨s1, r1⟩
  have h1 : SameShape s s1 := by have := pop_as_shape s t; rw [hp] at this; exact this
  cases r1 with
  | error e => simp only [VMState.binop, hp]; exact h1
  | ok b =>
    rcases hp2 : s1.pop_as t with ⟨s2, r2⟩
    have h2 : SameShape s s2 := by
      have := pop_as_shape s1 t; rw [hp2] at this; exact sameShape_trans h1 this
    cases r2 with
    | error e => simp only [VMState.binop, hp, hp2]; exact h2
    | ok a =>
      simp only [VMState.binop, hp, hp2]
      exact sameShape_trans h2 (push_shape s2 (f a b))

theorem binop_try_shape (s : VMState) (t : ValueType) (f : Nat → Nat → Except Trap Value) :
    SameShape s (s.binop_try t f).1 := by
  rcases hp : s.pop_as t with ⟨s1, r1⟩
  have h1 : SameShape s s1 := by have := pop_as_shape s t; rw [hp] at this; exact this
  cases r1 with
  | error e => simp only [VMState.binop_try, hp]; exact h1
  | ok b =>
    rcases hp2 : s1.pop_as t with ⟨s2, r2⟩
    have h2 : SameShape s s2 := by
      have := pop_as_shape s1 t; rw [hp2] at this; exact sameShape_trans h1 this
    cases r2 with
    | error e => simp only [VMState.binop_try, hp, hp2]; exact h2
    | ok a =>
      cases hf : f a b with
      | error e => simp only [VMState.binop_try, hp, hp2, hf]; exact h2
      | ok v =>
        simp only [VMState.binop_try, hp, hp2, hf]
        exact sameShape_trans h2 (push_shape s2 v)

theorem perform_load_shape (s : VMState) (width : Nat) (mk : Nat → Value) (offset : Nat) :
    SameShape s (s.perform_load width mk offset).1 := by
  rcases hp : s.pop_as .i32 with ⟨s1, r1⟩
  have h1 : SameShape s s1 := by have := pop_as_shape s .i32; rw [hp] at this; exact this
  cases r1 with
  | error e => simp only [VMState.perform_load, hp]; exact h1
  | ok base =>
    cases hm : s1.memories.get? 0 with
    | none => simp only [VMState.perform_load, hp, hm]; exact h1
    | some mem =>
      cases hl : mem.load width ((base + offset) % u32size) with
      | error t => simp only [VMState.perform_load, hp, hm, hl]; exact h1
      | ok v =>
        rcases hpu : s1.push (mk v) with ⟨s2, r2⟩
        have h2 : SameShape s s2 := by
          have := push_shape s1 (mk v); rw [hpu] at this; exact sameShape_trans h1 this
        cases r2 with
        | some t => simp only [VMState.perform_load, hp, hm, hl, hpu]; exact h2
        | none =>
          cases hf : s2.breakpoints.find_memory ((base + offset) % u32size) width false with
          | some bi => simp only [VMState.perform_load, hp, hm, hl, hpu, hf]; exact h2
          | none => simp only [VMState.perform_load, hp, hm, hl, hpu, hf]; exact h2

theorem perform_load_extend_shape (s : VMState) (width : Nat) (mk : Nat → Value) (offset : Nat) :
    SameShape s (s.perform_load_extend width mk offset).1 := by
  rcases hp : s.pop_as .i32 with ⟨s1, r1⟩
  have h1 : SameShape s s1 := by have := pop_as_shape s .i32; rw [hp] at this; exact this
  cases r1 with
  | error e => simp only [VMState.perform_load_extend, hp]; exact h1
  | ok base =>
    cases hm : s1.memories.get? 0 with
    | none => simp only [VMState.perform_load_extend, hp, hm]; exact h1
    | some mem =>
      cases hl : mem.load width ((base + offset) % u32size) with
      | error t => simp only [VMState.perform_load_extend, hp, hm, hl]; exact h1
      | ok v =>
        rcases hpu : s1.push (mk v) with ⟨s2, r2⟩
        have h2 : SameShape s s2 := by
          have := push_shape s1 (mk v); rw [hpu] at this; exact sameShape_trans h1 this
        cases r2 with
        | some t => simp only [VMState.perform_load_extend, hp, hm, hl, hpu]; exact h2
        | none =>
          cases hf : s2.breakpoints.find_memory ((base + offset) % u32size) width false with
          | some bi => simp only [VMState.perform_load_extend, hp, hm, hl, hpu, hf]; exact h2
          | none => simp only [VMState.perform_load_extend, hp, hm, hl, hpu, hf]; exact h2

theorem perform_store_shape (s : VMState) (t : ValueType) (width offset : Nat) :
    SameShape s (s.perform_store t width offset).1 := by
  rcases hp : s.pop_as t with ⟨s1, r1⟩
  have h1 : SameShape s s1 := by have := pop_as_shape s t; rw [hp] at this; exact this
  cases r1 with
  | error e => simp only [VMState.perform_store, hp]; exact h1
  | ok value =>
    rcases hp2 : s1.pop_as .i32 with ⟨s2, r2⟩
    have h2 : SameShape s s2 := by
      have := pop_as_shape s1 .i32; rw [hp2] at this; exact sameShape_trans h1 this
    cases r2 with
    | error e => simp only [VMState.perform_store, hp, hp2]; exact h2
    | ok base =>
      cases hm : s2.memories.get? 0 with
      | none => simp only [VMState.perform_store, hp, hp2, hm]; exact h2
      | some mem =>
        cases hst : mem.store width ((base + offset) % u32size) value with
        | error tr => simp only [VMState.perform_store, hp, hp2, hm, hst]; exact h2
        | ok memP =>
          have h3 : SameShape s ({ s2 with memories := s2.memories.set 0 memP } : VMState) :=
            sameShape_trans h2 ⟨rfl, rfl, rfl⟩
          cases hf : ({ s2 with memories := s2.memories.set 0 memP } : VMState).breakpoints.find_memory
              ((base + offset) % u32size) width true with
          | some bi => simp only [VMState.perform_store, hp, hp2, hm, hst, hf]; exact h3
          | none => simp only [VMState.perform_store, hp, hp2, hm, hst, hf]; exact h3

theorem perform_store_wrap_shape (s : VMState) (t : ValueType) (width offset : Nat) :
    SameShape s (s.perform_store_wrap t width offset).1 := by
  rcases hp : s.pop_as t with ⟨s1, r1⟩
  have h1 : SameShape s s1 := by have := pop_as_shape s t; rw [hp] at this; exact this
  cases r1 with
  | error e => simp only [VMState.perform_store_wrap, hp]; exact h1
  | ok value =>
    rcases hp2 : s1.pop_as .i32 with ⟨s2, r2⟩
    have h2 : SameShape s s2 := by
      have := pop_as_shape s1 .i32; rw [hp2] at this; exact sameShape_trans h1 this
    cases r2 with
    | error e => simp only [VMState.perform_store_wrap, hp, hp2]; exact h2
    | ok base =>
      cases hm : s2.memories.get? 0 with
      | none => simp only [VMState.perform_store_wrap, hp, hp2, hm]; exact h2
      | some mem =>
        cases hst : mem.store width ((base + offset) % u32size) (value % 256 ^ width) with
        | error tr => simp only [VMState.perform_store_wrap, hp, hp2, hm, hst]; exact h2
        | ok memP =>
          have h3 : SameShape s ({ s2 with memories := s2.memories.set 0 memP } : VMState) :=
            sameShape_trans h2 ⟨rfl, rfl, rfl⟩
          cases hf : ({ s2 with memories := s2.memories.set 0 memP } : VMState).breakpoints.find_memory
              ((base + offset) % u32size) width true with
          | some bi => simp only [VMState.perform_store_wrap, hp, hp2, hm, hst, hf]; exact h3
          | none => simp only [VMState.perform_store_wrap, hp, hp2, hm, hst, hf]; exact h3

/-! ## Label-stack accounting lemmas -/

theorem returnCount_cons_ret (l : List Label) :
    returnCount (.Return :: l) = returnCount l + 1 := by
  simp [returnCount, List.countP_cons]

theorem returnCount_cons_bound (t : Nat) (l : List Label) :
    returnCount (.Bound t :: l) = returnCount l := by
  simp [returnCount, List.countP_cons]

theorem returnCount_cons_unbound (l : List Label) :
    returnCount (.Unbound :: l) = returnCount l := by
  simp [returnCount, List.countP_cons]

theorem returnCount_drop_le (l : List Label) (m : Nat) :
    returnCount (l.drop m) ≤ returnCount l :=
  List.Sublist.countP_le _ (List.drop_sublist m l)

theorem popToReturn_count (l rest : List Label) (h : popToReturn l = some rest) :
    returnCount l = returnCount rest + 1 := by
  induction l with
  | nil => simp [popToReturn] at h
  | cons hd tl ih =>
    cases hd with
    | Return =>
      simp only [popToReturn] at h
      obtain rfl := Option.some.inj h
      exact returnCount_cons_ret tl
    | Bound t =>
      simp only [popToReturn] at h
      rw [returnCount_cons_bound]
      exact ih h
    | Unbound =>
      simp only [popToReturn] at h
      rw [returnCount_cons_unbound]
      exact ih h

/-- `branch` never touches the trap or the function stack, and only drops
labels off the top of the label stack. -/
theorem branch_props (s : VMState) (k : Nat) (s' : VMState) (r : Option Trap)
    (h : s.branch k = some (s', r)) :
    s'.trap = s.trap ∧ s'.function_stack = s.function_stack ∧
    ∃ m, s'.label_stack = s.label_stack.drop m := by
  obtain ⟨m, hm⟩ : ∃ m,
      (if k ≤ s.label_stack.length then s.label_stack.drop k else s.label_stack) =
        s.label_stack.drop m := by
    split
    · exact ⟨k, rfl⟩
    · exact ⟨0, rfl⟩
  simp only [VMState.branch, hm] at h
  cases hh : (s.label_stack.drop m).head? with
  | none => simp [hh] at h
  | some l =>
    cases l with
    | Bound target =>
      simp only [hh] at h
      injection h with hq
      injection hq with h1 h2
      subst h1
      exact ⟨rfl, rfl, m, rfl⟩
    | Unbound =>
      simp only [hh] at h
      cases hg : s.module.get_func s.ip.func_index with
      | none =>
        simp only [hg] at h
        injection h with hq
        injection hq with h1 h2
        subst h1
        exact ⟨rfl, rfl, m, rfl⟩
      | some func =>
        simp only [hg] at h
        cases hs : scanUnmatchedEnd func.instructions s.ip.instr_index (k + 1) with
        | none => simp [hs] at h
        | some target =>
          simp only [hs] at h
          injection h with hq
          injection hq with h1 h2
          subst h1
          exact ⟨rfl, rfl, m, rfl⟩
    | Return =>
      simp only [hh] at h
      injection h with hq
      injection hq with h1 h2
      subst h1
      exact ⟨rfl, rfl, m, rfl⟩

/-- `branch_else` only moves the instruction pointer. -/
theorem branch_else_props (s : VMState) (s' : VMState) (r : Option Trap)
    (h : s.branch_else = some (s', r)) :
    s'.trap = s.trap ∧ s'.function_stack = s.function_stack ∧
    s'.label_stack = s.label_stack := by
  cases hg : s.module.get_func s.ip.func_index with
  | none =>
    simp only [VMState.branch_else, hg] at h
    injection h with hq
    injection hq with h1 h2
    subst h1
    exact ⟨rfl, rfl, rfl⟩
  | some func =>
    simp only [VMState.branch_else, hg] at h
    cases hs : scanElse func.instructions s.ip.instr_index 1 with
    | none => simp [hs] at h
    | some target =>
      simp only [hs] at h
      injection h with hq
      injection hq with h1 h2
      subst h1
      exact ⟨rfl, rfl, rfl⟩

/-- The three possible outcomes of `call` for the label/function stacks:
an early error leaves both untouched; `FunctionStackOverflow` leaves the
`Return` label that was pushed before the check; success pushes both a
`Return` label and a frame. -/
theorem call_props (s : VMState) (idx : Nat) :
    (s.call idx).1.trap = s.trap ∧
    (((s.call idx).1.label_stack = s.label_stack ∧
        (s.call idx).1.function_stack = s.function_stack) ∨
      ((s.call idx).1.label_stack = .Return :: s.label_stack ∧
        (s.call idx).1.function_stack = s.function_stack ∧
        (s.call idx).2 = some .FunctionStackOverflow ∧
        FUNCTION_STACK_LIMIT ≤ s.function_stack.length) ∨
      ((s.call idx).1.label_stack = .Return :: s.label_stack ∧
        (s.call idx).1.function_stack.length = s.function_stack.length + 1)) := by
  rcases hc : s.call idx with ⟨sC, rC⟩
  simp only [hc]
  rw [VMState.call] at hc
  cases hg : s.module.get_func idx with
  | none =>
    simp only [hg] at hc
    injection hc with h1 h2
    subst h1
    exact ⟨rfl, .inl ⟨rfl, rfl⟩⟩
  | some func =>
    simp only [hg] at hc
    by_cases hpar : func.func_type.params.length ≤ s.value_stack.length
    · rw [if_pos hpar] at hc
      by_cases hlab : s.label_stack.length ≥ LABEL_STACK_LIMIT
      · rw [if_pos hlab] at hc
        injection hc with h1 h2
        subst h1
        exact ⟨rfl, .inl ⟨rfl, rfl⟩⟩
      · rw [if_neg hlab] at hc
        by_cases hfun : s.function_stack.length ≥ FUNCTION_STACK_LIMIT
        · rw [if_pos hfun] at hc
          injection hc with h1 h2
          subst h1
          subst h2
          exact ⟨rfl, .inr (.inl ⟨rfl, rfl, rfl, hfun⟩)⟩
        · rw [if_neg hfun] at hc
          injection hc with h1 h2
          subst h1
          exact ⟨rfl, .inr (.inr ⟨rfl, by simp⟩)⟩
    · rw [if_neg hpar] at hc
      injection hc with h1 h2
      subst h1
      exact ⟨rfl, .inl ⟨rfl, rfl⟩⟩

/-- Uniform consequence for arms that satisfy `SameShape`. -/
theorem props_of_shape (s s' : VMState) (r : Option Trap) (p : VMState × Option Trap)
    (hp : some p = some (s', r)) (hs : SameShape s p.1) :
    s'.trap = s.trap ∧
    (returnCount s.label_stack = s.function_stack.length →
      returnCount s'.label_stack = s'.function_stack.length ∨
      (s'.label_stack = [] ∧ s'.function_stack.length = 1 ∧ r = none) ∨
      (r = some .FunctionStackOverflow ∧
        returnCount s'.label_stack = s'.function_stack.length + 1) ∨
      (s'.function_stack.length = s.function_stack.length ∧
        returnCount s'.label_stack < returnCount s.label_stack)) := by
  obtain rfl := Option.some.inj hp
  have hsP : SameShape s s' := hs
  exact ⟨hsP.2.2, fun hInv => .inl (by rw [hsP.1, hsP.2.1]; exact hInv)⟩

/-- Uniform consequence for arms ending in `branch`, possibly after
shape-preserving pops. -/
theorem props_of_branch (s sB : VMState) (k : Nat) (s' : VMState) (r : Option Trap)
    (hB : sB.branch k = some (s', r)) (hs : SameShape s sB) :
    s'.trap = s.trap ∧
    (returnCount s.label_stack = s.function_stack.length →
      returnCount s'.label_stack = s'.function_stack.length ∨
      (s'.label_stack = [] ∧ s'.function_stack.length = 1 ∧ r = none) ∨
      (r = some .FunctionStackOverflow ∧
        returnCount s'.label_stack = s'.function_stack.length + 1) ∨
      (s'.function_stack.length = s.function_stack.length ∧
        returnCount s'.label_stack < returnCount s.label_stack)) := by
  obtain ⟨htrap, hfr, m, hlab⟩ := branch_props sB k s' r hB
  refine ⟨htrap.trans hs.2.2, fun hInv => ?_⟩
  have hflen : s'.function_stack.length = s.function_stack.length := by
    rw [hfr, hs.2.1]
  have hle : returnCount s'.label_stack ≤ returnCount s.label_stack := by
    rw [hlab, hs.1]
    exact returnCount_drop_le _ m
  cases eq_or_lt_of_le hle with
  | inl heq =>
    left
    rw [heq, hflen]
    exact hInv
  | inr hlt => exact .inr (.inr (.inr ⟨hflen, hlt⟩))

set_option maxHeartbeats 4000000 in
/-- The central accounting lemma: one instruction effect either preserves
the balance `#Return labels = #frames`, or finishes (empty label stack with
all frames retained), or fails a call with `FunctionStackOverflow` (one
unmatched `Return` label), or is a branch crossing `Return` labels (labels
lost, frames intact); and it never touches the sticky-trap field. -/
theorem stepInstr_props (fs : FloatSem) (s : VMState) (instr : Instruction)
    (s' : VMState) (r : Option Trap)
    (h : stepInstr fs s instr = some (s', r)) :
    s'.trap = s.trap ∧
    (returnCount s.label_stack = s.function_stack.length →
      returnCount s'.label_stack = s'.function_stack.length ∨
      (s'.label_stack = [] ∧ s'.function_stack.length = 1 ∧ r = none) ∨
      (r = some .FunctionStackOverflow ∧
        returnCount s'.label_stack = s'.function_stack.length + 1) ∨
      (s'.function_stack.length = s.function_stack.length ∧
        returnCount s'.label_stack < returnCount s.label_stack)) := by
  cases instr
  case Block =>
    simp only [stepInstr] at h
    injection h with hq
    injection hq with h1 h2
    subst h1
    subst h2
    refine ⟨rfl, fun hInv => .inl ?_⟩
    simpa [returnCount_cons_unbound] using hInv
  case Loop =>
    simp only [stepInstr] at h
    injection h with hq
    injection hq with h1 h2
    subst h1
    subst h2
    refine ⟨rfl, fun hInv => .inl ?_⟩
    simpa [returnCount_cons_bound] using hInv
  case If =>
    rcases hp : ({ s with label_stack := .Unbound :: s.label_stack } : VMState).pop_as .i32
      with ⟨s2, r2⟩
    have hs2 : SameShape ({ s with label_stack := .Unbound :: s.label_stack } : VMState) s2 := by
      have := pop_as_shape ({ s with label_stack := .Unbound :: s.label_stack } : VMState) .i32
      rw [hp] at this
      exact this
    have hlab2 : s2.label_stack = .Unbound :: s.label_stack := hs2.1
    have hfr2 : s2.function_stack.length = s.function_stack.length := hs2.2.1
    have htr2 : s2.trap = s.trap := hs2.2.2
    cases r2 with
    | error e =>
      simp only [stepInstr, hp] at h
      injection h with hq
      injection hq with h1 h2
      subst h1
      subst h2
      refine ⟨htr2, fun hInv => .inl ?_⟩
      rw [hlab2, returnCount_cons_unbound, hfr2]
      exact hInv
    | ok cond =>
      by_cases hc : cond = 0
      · simp only [stepInstr, hp, if_pos hc] at h
        obtain ⟨htrB, hfrB, hlabB⟩ := branch_else_props s2 s' r h
        refine ⟨htrB.trans htr2, fun hInv => .inl ?_⟩
        rw [hlabB, hlab2, returnCount_cons_unbound, hfrB, hfr2]
        exact hInv
      · simp only [stepInstr, hp, if_neg hc] at h
        injection h with hq
        injection hq with h1 h2
        subst h1
        subst h2
        refine ⟨htr2, fun hInv => .inl ?_⟩
        rw [hlab2, returnCount_cons_unbound, hfr2]
        exact hInv
  case Else =>
    exact props_of_branch s s 0 s' r h (sameShape_refl s)
  case Br index =>
    exact props_of_branch s s index s' r h (sameShape_refl s)
  case BrIf index =>
    rcases hp : s.pop_as .i32 with ⟨s2, r2⟩
    have hs2 : SameShape s s2 := by
      have := pop_as_shape s .i32; rw [hp] at this; exact this
    cases r2 with
    | error e =>
      simp only [stepInstr, hp] at h
      exact props_of_shape s s' r _ h hs2
    | ok cond =>
      by_cases hc : cond ≠ 0
      · simp only [stepInstr, hp, if_pos hc] at h
        exact props_of_branch s s2 index s' r h hs2
      · simp only [stepInstr, hp, if_neg hc] at h
        exact props_of_shape s s' r _ h hs2
  case BrTable table dflt =>
    rcases hp : s.pop_as .i32 with ⟨s2, r2⟩
    have hs2 : SameShape s s2 := by
      have := pop_as_shape s .i32; rw [hp] at this; exact this
    cases r2 with
    | error e =>
      simp only [stepInstr, hp] at h
      exact props_of_shape s s' r _ h hs2
    | ok index =>
      simp only [stepInstr, hp] at h
      exact props_of_branch s s2 _ s' r h hs2
  case End =>
    cases hl : s.label_stack with
    | nil =>
      simp only [stepInstr, hl] at h
      injection h with hq
      injection hq with h1 h2
      subst h1
      subst h2
      exact ⟨rfl, fun hInv => .inl (by rw [hl]; exact hInv)⟩
    | cons lbl rest =>
      cases lbl with
      | Return =>
        simp only [stepInstr, hl] at h
        by_cases hre : rest.isEmpty = true
        · rw [if_pos hre] at h
          injection h with hq
          injection hq with h1 h2
          subst h1
          subst h2
          have hnil : rest = [] := List.isEmpty_iff.mp hre
          refine ⟨rfl, fun hInv => .inr (.inl ⟨hnil, ?_, rfl⟩)⟩
          show s.function_stack.length = 1
          rw [← hInv, hnil, returnCount_cons_ret]
          simp [returnCount]
        · rw [if_neg hre] at h
          cases hf : s.function_stack with
          | nil => simp [hf] at h
          | cons frame frames =>
            simp only [hf] at h
            injection h with hq
            injection hq with h1 h2
            subst h1
            subst h2
            refine ⟨rfl, fun hInv => .inl ?_⟩
            show returnCount rest = frames.length
            rw [returnCount_cons_ret] at hInv
            simpa using hInv
      | Bound t =>
        simp only [stepInstr, hl] at h
        injection h with hq
        injection hq with h1 h2
        subst h1
        subst h2
        refine ⟨rfl, fun hInv => .inl ?_⟩
        show returnCount rest = s.function_stack.length
        rw [returnCount_cons_bound] at hInv
        exact hInv
      | Unbound =>
        simp only [stepInstr, hl] at h
        injection h with hq
        injection hq with h1 h2
        subst h1
        subst h2
        refine ⟨rfl, fun hInv => .inl ?_⟩
        show returnCount rest = s.function_stack.length
        rw [returnCount_cons_unbound] at hInv
        exact hInv
  case Return =>
    cases hpr : popToReturn s.label_stack with
    | none => simp [stepInstr, hpr] at h
    | some rest =>
      have hcount := popToReturn_count s.label_stack rest hpr
      simp only [stepInstr, hpr] at h
      by_cases hre : rest.isEmpty = true
      · rw [if_pos hre] at h
        injection h with hq
        injection hq with h1 h2
        subst h1
        subst h2
        have hnil : rest = [] := List.isEmpty_iff.mp hre
        refine ⟨rfl, fun hInv => .inr (.inl ⟨hnil, ?_, rfl⟩)⟩
        show s.function_stack.length = 1
        rw [← hInv, hcount, hnil]
        simp [returnCount]
      · rw [if_neg hre] at h
        cases hf : s.function_stack with
        | nil => simp [hf] at h
        | cons frame frames =>
          simp only [hf] at h
          injection h with hq
          injection hq with h1 h2
          subst h1
          subst h2
          refine ⟨rfl, fun hInv => .inl ?_⟩
          show returnCount rest = frames.length
          rw [hcount] at hInv
          simpa using hInv
  case Call idx =>
    simp only [stepInstr] at h
    have hq := Option.some.inj h
    have hsC : (s.call idx).1 = s' := by rw [hq]
    have hrC : (s.call idx).2 = r := by rw [hq]
    obtain ⟨htrap, hdisj⟩ := call_props s idx
    rw [hsC] at htrap
    refine ⟨htrap, fun hInv => ?_⟩
    rcases hdisj with ⟨hlb, hfr⟩ | ⟨hlb, hfr, hro, hcap⟩ | ⟨hlb, hflen⟩
    · left
      rw [← hsC, hlb, hfr]
      exact hInv
    · refine .inr (.inr (.inl ⟨by rw [← hrC]; exact hro, ?_⟩))
      rw [← hsC, hlb, returnCount_cons_ret, hfr]
      omega
    · left
      rw [← hsC, hlb, returnCount_cons_ret, hflen]
      omega
  case CallIndirect sig reserved =>
    rcases hp : s.pop_as .i32 with ⟨s2, r2⟩
    have hs2 : SameShape s s2 := by
      have := pop_as_shape s .i32; rw [hp] at this; exact this
    cases r2 with
    | error e =>
      simp only [stepInstr, hp] at h
      exact props_of_shape s s' r _ h hs2
    | ok callee =>
      cases ht : s2.tables.get? 0 with
      | none =>
        simp only [stepInstr, hp, ht] at h
        exact props_of_shape s s' r _ h hs2
      | some table =>
        cases hte : table.get callee with
        | Null =>
          simp only [stepInstr, hp, ht, hte] at h
          exact props_of_shape s s' r _ h hs2
        | Func fi =>
          cases hg : s2.module.get_func fi with
          | none =>
            simp only [stepInstr, hp, ht, hte, hg] at h
            exact props_of_shape s s' r _ h hs2
          | some func =>
            by_cases hsig : func.func_type.type_ref ≠ sig
            · simp only [stepInstr, hp, ht, hte, hg, if_pos hsig] at h
              exact props_of_shape s s' r _ h hs2
            · simp only [stepInstr, hp, ht, hte, hg, if_neg hsig] at h
              have hq := Option.some.inj h
              have hsC : (s2.call fi).1 = s' := by rw [hq]
              have hrC : (s2.call fi).2 = r := by rw [hq]
              obtain ⟨htrap, hdisj⟩ := call_props s2 fi
              rw [hsC] at htrap
              refine ⟨htrap.trans hs2.2.2, fun hInv => ?_⟩
              have hInv2 : returnCount s2.label_stack = s2.function_stack.length := by
                rw [hs2.1, hs2.2.1]
                exact hInv
              rcases hdisj with ⟨hlb, hfr⟩ | ⟨hlb, hfr, hro, hcap⟩ | ⟨hlb, hflen⟩
              · left
                rw [← hsC, hlb, hfr]
                exact hInv2
              · refine .inr (.inr (.inl ⟨by rw [← hrC]; exact hro, ?_⟩))
                rw [← hsC, hlb, returnCount_cons_ret, hfr]
                omega
              · left
                rw [← hsC, hlb, returnCount_cons_ret, hflen]
                omega
  case Drop =>
    rcases hp : s.pop with ⟨s1, r1⟩
    have hs1 : SameShape s s1 := by
      have := pop_shape s; rw [hp] at this; exact this
    cases r1 with
    | error e =>
      simp only [stepInstr, hp] at h
      exact props_of_shape s s' r _ h hs1
    | ok v =>
      simp only [stepInstr, hp] at h
      exact props_of_shape s s' r _ h hs1
  case Select =>
    rcases hp1 : s.pop_as .i32 with ⟨s1, r1⟩
    have hs1 : SameShape s s1 := by
      have := pop_as_shape s .i32; rw [hp1] at this; exact this
    cases r1 with
    | error e =>
      simp only [stepInstr, hp1] at h
      exact props_of_shape s s' r _ h hs1
    | ok cond =>
      rcases hp2 : s1.pop with ⟨s2, r2⟩
      have hs2 : SameShape s s2 := by
        have := pop_shape s1; rw [hp2] at this; exact sameShape_trans hs1 this
      cases r2 with
      | error e =>
        simp only [stepInstr, hp1, hp2] at h
        exact props_of_shape s s' r _ h hs2
      | ok val2 =>
        rcases hp3 : s2.pop with ⟨s3, r3⟩
        have hs3 : SameShape s s3 := by
          have := pop_shape s2; rw [hp3] at this; exact sameShape_trans hs2 this
        cases r3 with
        | error e =>
          simp only [stepInstr, hp1, hp2, hp3] at h
          exact props_of_shape s s' r _ h hs3
        | ok val1 =>
          simp only [stepInstr, hp1, hp2, hp3] at h
          by_cases hc : cond ≠ 0
          · rw [if_pos hc] at h
            exact props_of_shape s s' r _ h (sameShape_trans hs3 (push_shape s3 val1))
          · rw [if_neg hc] at h
            exact props_of_shape s s' r _ h (sameShape_trans hs3 (push_shape s3 val2))
  case GetLocal index =>
    cases hf : s.function_stack with
    | nil =>
      simp only [stepInstr, hf] at h
      rw [← hf]
      exact props_of_shape s s' r _ h (sameShape_refl s)
    | cons frame frames =>
      cases hloc : frame.locals.get? index with
      | none =>
        simp only [stepInstr, hf, hloc] at h
        exact Option.noConfusion h
      | some val =>
        simp only [stepInstr, hf, hloc] at h
        rw [← hf]
        exact props_of_shape s s' r _ h (push_shape s val)
  case SetLocal index =>
    rcases hp : s.pop with ⟨s1, r1⟩
    have hs1 : SameShape s s1 := by
      have := pop_shape s; rw [hp] at this; exact this
    cases r1 with
    | error e =>
      simp only [stepInstr, hp] at h
      exact props_of_shape s s' r _ h hs1
    | ok val =>
      cases hf : s1.function_stack with
      | nil =>
        simp only [stepInstr, hp, hf] at h
        exact props_of_shape s s' r _ h hs1
      | cons frame frames =>
        by_cases hlt : index < frame.locals.length
        · simp only [stepInstr, hp, hf, if_pos hlt] at h
          injection h with hq
          injection hq with h1 h2
          subst h1
          subst h2
          refine ⟨hs1.2.2, fun hInv => .inl ?_⟩
          show returnCount s1.label_stack = frames.length + 1
          rw [hs1.1]
          have hlen : s.function_stack.length = frames.length + 1 := by
            rw [← hs1.2.1, hf]
            simp
          exact hInv.trans hlen
        · simp [stepInstr, hp, hf, if_neg hlt] at h
  case TeeLocal index =>
    cases hv : s.value_stack.head? with
    | none =>
      simp only [stepInstr, hv] at h
      exact props_of_shape s s' r _ h (sameShape_refl s)
    | some val =>
      cases hf : s.function_stack with
      | nil =>
        simp only [stepInstr, hv, hf] at h
        rw [← hf]
        exact props_of_shape s s' r _ h (sameShape_refl s)
      | cons frame frames =>
        by_cases hlt : index < frame.locals.length
        · simp only [stepInstr, hv, hf, if_pos hlt] at h
          injection h with hq
          injection hq with h1 h2
          subst h1
          subst h2
          refine ⟨rfl, fun hInv => .inl ?_⟩
          show returnCount s.label_stack = frames.length + 1
          simpa using hInv
        · simp [stepInstr, hv, hf, if_neg hlt] at h
  case GetGlobal index =>
    cases hg : s.globals.get? index with
    | none =>
      simp only [stepInstr, hg] at h
      exact Option.noConfusion h
    | some val =>
      rcases hpu : s.push val with ⟨s1, r1⟩
      have hs1 : SameShape s s1 := by
        have := push_shape s val; rw [hpu] at this; exact this
      cases r1 with
      | some t =>
        simp only [stepInstr, hg, hpu] at h
        exact props_of_shape s s' r _ h hs1
      | none =>
        cases hfg : s1.breakpoints.find_global index false with
        | some bi =>
          simp only [stepInstr, hg, hpu, hfg] at h
          exact props_of_shape s s' r _ h hs1
        | none =>
          simp only [stepInstr, hg, hpu, hfg] at h
          exact props_of_shape s s' r _ h hs1
  case SetGlobal index =>
    rcases hp : s.pop with ⟨s1, r1⟩
    have hs1 : SameShape s s1 := by
      have := pop_shape s; rw [hp] at this; exact this
    cases r1 with
    | error e =>
      simp only [stepInstr, hp] at h
      exact props_of_shape s s' r _ h hs1
    | ok val =>
      by_cases hlt : index < s1.globals.length
      · simp only [stepInstr, hp, if_pos hlt] at h
        cases hfg : ({ s1 with globals := s1.globals.set index val } : VMState).breakpoints.find_global
            index true with
        | some bi =>
          simp only [hfg] at h
          exact props_of_shape s s' r _ h (sameShape_trans hs1 ⟨rfl, rfl, rfl⟩)
        | none =>
          simp only [hfg] at h
          exact props_of_shape s s' r _ h (sameShape_trans hs1 ⟨rfl, rfl, rfl⟩)
      · simp [stepInstr, hp, if_neg hlt] at h
  case CurrentMemory reserved =>
    cases hm : s.memories.get? 0 with
    | none =>
      simp only [stepInstr, hm] at h
      exact props_of_shape s s' r _ h (sameShape_refl s)
    | some mem =>
      simp only [stepInstr, hm] at h
      exact props_of_shape s s' r _ h (push_shape s _)
  case GrowMemory reserved =>
    rcases hp : s.pop_as .i32 with ⟨s1, r1⟩
    have hs1 : SameShape s s1 := by
      have := pop_as_shape s .i32; rw [hp] at this; exact this
    cases r1 with
    | error e =>
      simp only [stepInstr, hp] at h
      exact props_of_shape s s' r _ h hs1
    | ok delta =>
      cases hm : s1.memories.get? 0 with
      | none =>
        simp only [stepInstr, hp, hm] at h
        exact props_of_shape s s' r _ h hs1
      | some mem =>
        simp only [stepInstr, hp, hm] at h
        exact props_of_shape s s' r _ h
          (sameShape_trans (sameShape_trans hs1 ⟨rfl, rfl, rfl⟩)
            (push_shape ({ s1 with memories := s1.memories.set 0 (mem.grow delta).1 } : VMState) _))
  case Unreachable =>
    simp only [stepInstr] at h
    exact props_of_shape s s' r _ h (sameShape_refl s)
  case Nop =>
    simp only [stepInstr] at h
    exact props_of_shape s s' r _ h (sameShape_refl s)
  case I32Const bits =>
    simp only [stepInstr] at h
    exact props_of_shape s s' r _ h (push_shape s _)
  case I64Const bits =>
    simp only [stepInstr] at h
    exact props_of_shape s s' r _ h (push_shape s _)
  case F32Const bits =>
    simp only [stepInstr] at h
    exact props_of_shape s s' r _ h (push_shape s _)
  case F64Const bits =>
    simp only [stepInstr] at h
    exact props_of_shape s s' r _ h (push_shape s _)
  case I32Eqz =>
    simp only [stepInstr] at h
    exact props_of_shape s s' r _ h (unop_shape s _ _)
  case I64Eqz =>
    simp only [stepInstr] at h
    exact props_of_shape s s' r _ h (unop_shape s _ _)
  case I32Clz =>
    simp only [stepInstr] at h
    exact props_of_shape s s' r _ h (unop_shape s _ _)
  case I32Ctz =>
    simp only [stepInstr] at h
    exact props_of_shape s s' r _ h (unop_shape s _ _)
  case I32Popcnt =>
    simp only [stepInstr] at h
    exact props_of_shape s s' r _ h (unop_shape s _ _)
  case I64Clz =>
    simp only [stepInstr] at h
    exact props_of_shape s s' r _ h (unop_shape s _ _)
  case I64Ctz =>
    simp only [stepInstr] at h
    exact props_of_shape s s' r _ h (unop_shape s _ _)
  case I64Popcnt =>
    simp only [stepInstr] at h
    exact props_of_shape s s' r _ h (unop_shape s _ _)
  case F32Abs =>
    simp only [stepInstr] at h
    exact props_of_shape s s' r _ h (unop_shape s _ _)
  case F32Neg =>
    simp only [stepInstr] at h
    exact props_of_shape s s' r _ h (unop_shape s _ _)
  case F32Ceil =>
    simp only [stepInstr] at h
    exact props_of_shape s s' r _ h (unop_shape s _ _)
  case F32Floor =>
    simp only [stepInstr] at h
    exact props_of_shape s s' r _ h (unop_shape s _ _)
  case F32Trunc =>
    simp only [stepInstr] at h
    exact props_of_shape s s' r _ h (unop_shape s _ _)
  case F32Nearest =>
    simp only [stepInstr] at h
    exact props_of_shape s s' r _ h (unop_shape s _ _)
  case F32Sqrt =>
    simp only [stepInstr] at h
    exact props_of_shape s s' r _ h (unop_shape s _ _)
  case F64Abs =>
    simp only [stepInstr] at h
    exact props_of_shape s s' r _ h (unop_shape s _ _)
  case F64Neg =>
    simp only [stepInstr] at h
    exact props_of_shape s s' r _ h (unop_shape s _ _)
  case F64Ceil =>
    simp only [stepInstr] at h
    exact props_of_shape s s' r _ h (unop_shape s _ _)
  case F64Floor =>
    simp only [stepInstr] at h
    exact props_of_shape s s' r _ h (unop_shape s _ _)
  case F64Trunc =>
    simp only [stepInstr] at h
    exact props_of_shape s s' r _ h (unop_shape s _ _)
  case F64Nearest =>
    simp only [stepInstr] at h
    exact props_of_shape s s' r _ h (unop_shape s _ _)
  case F64Sqrt =>
    simp only [stepInstr] at h
    exact props_of_shape s s' r _ h (unop_shape s _ _)
  case I32WrapI64 =>
    simp only [stepInstr] at h
    exact props_of_shape s s' r _ h (unop_shape s _ _)
  case I64ExtendSI32 =>
    simp only [stepInstr] at h
    exact props_of_shape s s' r _ h (unop_shape s _ _)
  case I64ExtendUI32 =>
    simp only [stepInstr] at h
    exact props_of_shape s s' r _ h (unop_shape s _ _)
  case F32ConvertSI32 =>
    simp only [stepInstr] at h
    exact props_of_shape s s' r _ h (unop_shape s _ _)
  case F32ConvertUI32 =>
    simp only [stepInstr] at h
    exact props_of_shape s s' r _ h (unop_shape s _ _)
  case F32ConvertSI64 =>
    simp only [stepInstr] at h
    exact props_of_shape s s' r _ h (unop_shape s _ _)
  case F32ConvertUI64 =>
    simp only [stepInstr] at h
    exact props_of_shape s s' r _ h (unop_shape s _ _)
  case F32DemoteF64 =>
    simp only [stepInstr] at h
    exact props_of_shape s s' r _ h (unop_shape s _ _)
  case F64ConvertSI32 =>
    simp only [stepInstr] at h
    exact props_of_shape s s' r _ h (unop_shape s _ _)
  case F64ConvertUI32 =>
    simp only [stepInstr] at h
    exact props_of_shape s s' r _ h (unop_shape s _ _)
  case F64ConvertSI64 =>
    simp only [stepInstr] at h
    exact props_of_shape s s' r _ h (unop_shape s _ _)
  case F64ConvertUI64 =>
    simp only [stepInstr] at h
    exact props_of_shape s s' r _ h (unop_shape s _ _)
  case F64PromoteF32 =>
    simp only [stepInstr] at h
    exact props_of_shape s s' r _ h (unop_shape s _ _)
  case I32ReinterpretF32 =>
    simp only [stepInstr] at h
    exact props_of_shape s s' r _ h (unop_shape s _ _)
  case I64ReinterpretF64 =>
    simp only [stepInstr] at h
    exact props_of_shape s s' r _ h (unop_shape s _ _)
  case F32ReinterpretI32 =>
    simp only [stepInstr] at h
    exact props_of_shape s s' r _ h (unop_shape s _ _)
  case F64ReinterpretI64 =>
    simp only [stepInstr] at h
    exact props_of_shape s s' r _ h (unop_shape s _ _)
  case I32TruncSF32 =>
    simp only [stepInstr] at h
    exact props_of_shape s s' r _ h (unop_try_shape s _ _)
  case I32TruncUF32 =>
    simp only [stepInstr] at h
    exact props_of_shape s s' r _ h (unop_try_shape s _ _)
  case I32TruncSF64 =>
    simp only [stepInstr] at h
    exact props_of_shape s s' r _ h (unop_try_shape s _ _)
  case I32TruncUF64 =>
    simp only [stepInstr] at h
    exact props_of_shape s s' r _ h (unop_try_shape s _ _)
  case I64TruncSF32 =>
    simp only [stepInstr] at h
    exact props_of_shape s s' r _ h (unop_try_shape s _ _)
  case I64TruncUF32 =>
    simp only [stepInstr] at h
    exact props_of_shape s s' r _ h (unop_try_shape s _ _)
  case I64TruncSF64 =>
    simp only [stepInstr] at h
    exact props_of_shape s s' r _ h (unop_try_shape s _ _)
  case I64TruncUF64 =>
    simp only [stepInstr] at h
    exact props_of_shape s s' r _ h (unop_try_shape s _ _)
  case I32Eq =>
    simp only [stepInstr] at h
    exact props_of_shape s s' r _ h (binop_shape s _ _)
  case I32Ne =>
    simp only [stepInstr] at h
    exact props_of_shape s s' r _ h (binop_shape s _ _)
  case I32LtS =>
    simp only [stepInstr] at h
    exact props_of_shape s s' r _ h (binop_shape s _ _)
  case I32LtU =>
    simp only [stepInstr] at h
    exact props_of_shape s s' r _ h (binop_shape s _ _)
  case I32GtS =>
    simp only [stepInstr] at h
    exact props_of_shape s s' r _ h (binop_shape s _ _)
  case I32GtU =>
    simp only [stepInstr] at h
    exact props_of_shape s s' r _ h (binop_shape s _ _)
  case I32LeS =>
    simp only [stepInstr] at h
    exact props_of_shape s s' r _ h (binop_shape s _ _)
  case I32LeU =>
    simp only [stepInstr] at h
    exact props_of_shape s s' r _ h (binop_shape s _ _)
  case I32GeS =>
    simp only [stepInstr] at h
    exact props_of_shape s s' r _ h (binop_shape s _ _)
  case I32GeU =>
    simp only [stepInstr] at h
    exact props_of_shape s s' r _ h (binop_shape s _ _)
  case I64Eq =>
    simp only [stepInstr] at h
    exact props_of_shape s s' r _ h (binop_shape s _ _)
  case I64Ne =>
    simp only [stepInstr] at h
    exact props_of_shape s s' r _ h (binop_shape s _ _)
  case I64LtS =>
    simp only [stepInstr] at h
    exact props_of_shape s s' r _ h (binop_shape s _ _)
  case I64LtU =>
    simp only [stepInstr] at h
    exact props_of_shape s s' r _ h (binop_shape s _ _)
  case I64GtS =>
    simp only [stepInstr] at h
    exact props_of_shape s s' r _ h (binop_shape s _ _)
  case I64GtU =>
    simp only [stepInstr] at h
    exact props_of_shape s s' r _ h (binop_shape s _ _)
  case I64LeS =>
    simp only [stepInstr] at h
    exact props_of_shape s s' r _ h (binop_shape s _ _)
  case I64LeU =>
    simp only [stepInstr] at h
    exact props_of_shape s s' r _ h (binop_shape s _ _)
  case I64GeS =>
    simp only [stepInstr] at h
    exact props_of_shape s s' r _ h (binop_shape s _ _)
  case I64GeU =>
    simp only [stepInstr] at h
    exact props_of_shape s s' r _ h (binop_shape s _ _)
  case F32Eq =>
    simp only [stepInstr] at h
    exact props_of_shape s s' r _ h (binop_shape s _ _)
  case F32Ne =>
    simp only [stepInstr] at h
    exact props_of_shape s s' r _ h (binop_shape s _ _)
  case F32Lt =>
    simp only [stepInstr] at h
    exact props_of_shape s s' r _ h (binop_shape s _ _)
  case F32Gt =>
    simp only [stepInstr] at h
    exact props_of_shape s s' r _ h (binop_shape s _ _)
  case F32Le =>
    simp only [stepInstr] at h
    exact props_of_shape s s' r _ h (binop_shape s _ _)
  case F32Ge =>
    simp only [stepInstr] at h
    exact props_of_shape s s' r _ h (binop_shape s _ _)
  case F64Eq =>
    simp only [stepInstr] at h
    exact props_of_shape s s' r _ h (binop_shape s _ _)
  case F64Ne =>
    simp only [stepInstr] at h
    exact props_of_shape s s' r _ h (binop_shape s _ _)
  case F64Lt =>
    simp only [stepInstr] at h
    exact props_of_shape s s' r _ h (binop_shape s _ _)
  case F64Gt =>
    simp only [stepInstr] at h
    exact props_of_shape s s' r _ h (binop_shape s _ _)
  case F64Le =>
    simp only [stepInstr] at h
    exact props_of_shape s s' r _ h (binop_shape s _ _)
  case F64Ge =>
    simp only [stepInstr] at h
    exact props_of_shape s s' r _ h (binop_shape s _ _)
  case I32Add =>
    simp only [stepInstr] at h
    exact props_of_shape s s' r _ h (binop_shape s _ _)
  case I32Sub =>
    simp only [stepInstr] at h
    exact props_of_shape s s' r _ h (binop_shape s _ _)
  case I32Mul =>
    simp only [stepInstr] at h
    exact props_of_shape s s' r _ h (binop_shape s _ _)
  case I32And =>
    simp only [stepInstr] at h
    exact props_of_shape s s' r _ h (binop_shape s _ _)
  case I32Or =>
    simp only [stepInstr] at h
    exact props_of_shape s s' r _ h (binop_shape s _ _)
  case I32Xor =>
    simp only [stepInstr] at h
    exact props_of_shape s s' r _ h (binop_shape s _ _)
  case I32Shl =>
    simp only [stepInstr] at h
    exact props_of_shape s s' r _ h (binop_shape s _ _)
  case I32ShrS =>
    simp only [stepInstr] at h
    exact props_of_shape s s' r _ h (binop_shape s _ _)
  case I32ShrU =>
    simp only [stepInstr] at h
    exact props_of_shape s s' r _ h (binop_shape s _ _)
  case I32Rotl =>
    simp only [stepInstr] at h
    exact props_of_shape s s' r _ h (binop_shape s _ _)
  case I32Rotr =>
    simp only [stepInstr] at h
    exact props_of_shape s s' r _ h (binop_shape s _ _)
  case I64Add =>
    simp only [stepInstr] at h
    exact props_of_shape s s' r _ h (binop_shape s _ _)
  case I64Sub =>
    simp only [stepInstr] at h
    exact props_of_shape s s' r _ h (binop_shape s _ _)
  case I64Mul =>
    simp only [stepInstr] at h
    exact props_of_shape s s' r _ h (binop_shape s _ _)
  case I64And =>
    simp only [stepInstr] at h
    exact props_of_shape s s' r _ h (binop_shape s _ _)
  case I64Or =>
    simp only [stepInstr] at h
    exact props_of_shape s s' r _ h (binop_shape s _ _)
  case I64Xor =>
    simp only [stepInstr] at h
    exact props_of_shape s s' r _ h (binop_shape s _ _)
  case I64Shl =>
    simp only [stepInstr] at h
    exact props_of_shape s s' r _ h (binop_shape s _ _)
  case I64ShrS =>
    simp only [stepInstr] at h
    exact props_of_shape s s' r _ h (binop_shape s _ _)
  case I64ShrU =>
    simp only [stepInstr] at h
    exact props_of_shape s s' r _ h (binop_shape s _ _)
  case I64Rotl =>
    simp only [stepInstr] at h
    exact props_of_shape s s' r _ h (binop_shape s _ _)
  case I64Rotr =>
    simp only [stepInstr] at h
    exact props_of_shape s s' r _ h (binop_shape s _ _)
  case F32Add =>
    simp only [stepInstr] at h
    exact props_of_shape s s' r _ h (binop_shape s _ _)
  case F32Sub =>
    simp only [stepInstr] at h
    exact props_of_shape s s' r _ h (binop_shape s _ _)
  case F32Mul =>
    simp only [stepInstr] at h
    exact props_of_shape s s' r _ h (binop_shape s _ _)
  case F32Div =>
    simp only [stepInstr] at h
    exact props_of_shape s s' r _ h (binop_shape s _ _)
  case F32Min =>
    simp only [stepInstr] at h
    exact props_of_shape s s' r _ h (binop_shape s _ _)
  case F32Max =>
    simp only [stepInstr] at h
    exact props_of_shape s s' r _ h (binop_shape s _ _)
  case F32Copysign =>
    simp only [stepInstr] at h
    exact props_of_shape s s' r _ h (binop_shape s _ _)
  case F64Add =>
    simp only [stepInstr] at h
    exact props_of_shape s s' r _ h (binop_shape s _ _)
  case F64Sub =>
    simp only [stepInstr] at h
    exact props_of_shape s s' r _ h (binop_shape s _ _)
  case F64Mul =>
    simp only [stepInstr] at h
    exact props_of_shape s s' r _ h (binop_shape s _ _)
  case F64Div =>
    simp only [stepInstr] at h
    exact props_of_shape s s' r _ h (binop_shape s _ _)
  case F64Min =>
    simp only [stepInstr] at h
    exact props_of_shape s s' r _ h (binop_shape s _ _)
  case F64Max =>
    simp only [stepInstr] at h
    exact props_of_shape s s' r _ h (binop_shape s _ _)
  case F64Copysign =>
    simp only [stepInstr] at h
    exact props_of_shape s s' r _ h (binop_shape s _ _)
  case I32DivS =>
    simp only [stepInstr] at h
    exact props_of_shape s s' r _ h (binop_try_shape s _ _)
  case I32DivU =>
    simp only [stepInstr] at h
    exact props_of_shape s s' r _ h (binop_try_shape s _ _)
  case I32RemS =>
    simp only [stepInstr] at h
    exact props_of_shape s s' r _ h (binop_try_shape s _ _)
  case I32RemU =>
    simp only [stepInstr] at h
    exact props_of_shape s s' r _ h (binop_try_shape s _ _)
  case I64DivS =>
    simp only [stepInstr] at h
    exact props_of_shape s s' r _ h (binop_try_shape s _ _)
  case I64DivU =>
    simp only [stepInstr] at h
    exact props_of_shape s s' r _ h (binop_try_shape s _ _)
  case I64RemS =>
    simp only [stepInstr] at h
    exact props_of_shape s s' r _ h (binop_try_shape s _ _)
  case I64RemU =>
    simp only [stepInstr] at h
    exact props_of_shape s s' r _ h (binop_try_shape s _ _)
  case I32Load flag offset =>
    simp only [stepInstr] at h
    exact props_of_shape s s' r _ h (perform_load_shape s _ _ _)
  case I64Load flag offset =>
    simp only [stepInstr] at h
    exact props_of_shape s s' r _ h (perform_load_shape s _ _ _)
  case F32Load flag offset =>
    simp only [stepInstr] at h
    exact props_of_shape s s' r _ h (perform_load_shape s _ _ _)
  case F64Load flag offset =>
    simp only [stepInstr] at h
    exact props_of_shape s s' r _ h (perform_load_shape s _ _ _)
  case I32Load8S flag offset =>
    simp only [stepInstr] at h
    exact props_of_shape s s' r _ h (perform_load_extend_shape s _ _ _)
  case I32Load8U flag offset =>
    simp only [stepInstr] at h
    exact props_of_shape s s' r _ h (perform_load_extend_shape s _ _ _)
  case I32Load16S flag offset =>
    simp only [stepInstr] at h
    exact props_of_shape s s' r _ h (perform_load_extend_shape s _ _ _)
  case I32Load16U flag offset =>
    simp only [stepInstr] at h
    exact props_of_shape s s' r _ h (perform_load_extend_shape s _ _ _)
  case I64Load8S flag offset =>
    simp only [stepInstr] at h
    exact props_of_shape s s' r _ h (perform_load_extend_shape s _ _ _)
  case I64Load8U flag offset =>
    simp only [stepInstr] at h
    exact props_of_shape s s' r _ h (perform_load_extend_shape s _ _ _)
  case I64Load16S flag offset =>
    simp only [stepInstr] at h
    exact props_of_shape s s' r _ h (perform_load_extend_shape s _ _ _)
  case I64Load16U flag offset =>
    simp only [stepInstr] at h
    exact props_of_shape s s' r _ h (perform_load_extend_shape s _ _ _)
  case I64Load32S flag offset =>
    simp only [stepInstr] at h
    exact props_of_shape s s' r _ h (perform_load_extend_shape s _ _ _)
  case I64Load32U flag offset =>
    simp only [stepInstr] at h
    exact props_of_shape s s' r _ h (perform_load_extend_shape s _ _ _)
  case I32Store flag offset =>
    simp only [stepInstr] at h
    exact props_of_shape s s' r _ h (perform_store_shape s _ _ _)
  case I64Store flag offset =>
    simp only [stepInstr] at h
    exact props_of_shape s s' r _ h (perform_store_shape s _ _ _)
  case F32Store flag offset =>
    simp only [stepInstr] at h
    exact props_of_shape s s' r _ h (perform_store_shape s _ _ _)
  case F64Store flag offset =>
    simp only [stepInstr] at h
    exact props_of_shape s s' r _ h (perform_store_shape s _ _ _)
  case I32Store8 flag offset =>
    simp only [stepInstr] at h
    exact props_of_shape s s' r _ h (perform_store_wrap_shape s _ _ _)
  case I32Store16 flag offset =>
    simp only [stepInstr] at h
    exact props_of_shape s s' r _ h (perform_store_wrap_shape s _ _ _)
  case I64Store8 flag offset =>
    simp only [stepInstr] at h
    exact props_of_shape s s' r _ h (perform_store_wrap_shape s _ _ _)
  case I64Store16 flag offset =>
    simp only [stepInstr] at h
    exact props_of_shape s s' r _ h (perform_store_wrap_shape s _ _ _)
  case I64Store32 flag offset =>
    simp only [stepInstr] at h
    exact props_of_shape s s' r _ h (perform_store_wrap_shape s _ _ _)

/-- `stepAndCheck` returns a state whose sticky-trap field is untouched. -/
theorem stepAndCheck_trap (fs : FloatSem) (s : VMState) (instr : Instruction)
    (s1 : VMState) (r1 : Option Trap)
    (h : stepAndCheck fs s instr = some (s1, r1)) : s1.trap = s.trap := by
  unfold stepAndCheck at h
  cases hst : stepInstr fs s instr with
  | none => simp only [hst] at h; exact Option.noConfusion h
  | some p =>
    rcases p with ⟨s2, r2⟩
    have htr := (stepInstr_props fs s instr s2 r2 hst).1
    cases r2 with
    | some t =>
      simp only [hst] at h
      injection h with hq
      injection hq with h1 h2
      subst h1
      exact htr
    | none =>
      simp only [hst] at h
      by_cases he : s2.label_stack.isEmpty = true
      · rw [if_pos he] at h
        injection h with hq
        injection hq with h1 h2
        subst h1
        exact htr
      · rw [if_neg he] at h
        cases hfc : s2.breakpoints.find_code s2.ip with
        | some bi =>
          simp only [hfc] at h
          injection h with hq
          injection hq with h1 h2
          subst h1
          exact htr
        | none =>
          simp only [hfc] at h
          injection h with hq
          injection hq with h1 h2
          subst h1
          exact htr

/-- `execute_step_internal` never writes the sticky-trap field. -/
theorem execute_step_internal_trap (fs : FloatSem) (s : VMState)
    (s1 : VMState) (r1 : Option Trap)
    (h : execute_step_internal fs s = some (s1, r1)) : s1.trap = s.trap := by
  unfold execute_step_internal at h
  cases hg : s.module.get_func s.ip.func_index with
  | none => simp only [hg] at h; exact Option.noConfusion h
  | some func =>
    simp only [hg] at h
    by_cases himp : func.imported = true
    · rw [if_pos himp] at h
      injection h with hq
      injection hq with h1 h2
      subst h1
      rfl
    · rw [if_neg himp] at h
      cases hi : func.instructions.get? s.ip.instr_index with
      | none => simp only [hi] at h; exact Option.noConfusion h
      | some instr =>
        simp only [hi] at h
        exact stepAndCheck_trap fs
          { s with ip := { s.ip with instr_index := s.ip.instr_index + 1 } } instr s1 r1 h

/-- The label/frame accounting carried to `execute_step` (the amended C4
statement lives at this level). -/
theorem execute_step_balance (fs : FloatSem) (s s' : VMState) (r : Option Trap)
    (h : execute_step fs s = some (s', r))
    (hInv : returnCount s.label_stack = s.function_stack.length) :
    returnCount s'.label_stack = s'.function_stack.length ∨
    (s'.label_stack = [] ∧ s'.function_stack.length = 1 ∧ r = some .ExecutionFinished) ∨
    (r = some .FunctionStackOverflow ∧
      returnCount s'.label_stack = s'.function_stack.length + 1) ∨
    (s'.function_stack.length = s.function_stack.length ∧
      returnCount s'.label_stack < returnCount s.label_stack) := by
  unfold execute_step at h
  cases htr : s.trap with
  | some t =>
    simp only [htr] at h
    injection h with hq
    injection hq with h1 h2
    subst h1
    exact .inl hInv
  | none =>
    simp only [htr] at h
    cases hint : execute_step_internal fs s with
    | none => simp only [hint] at h; exact Option.noConfusion h
    | some p =>
      rcases p with ⟨s1, r1⟩
      -- trace the internal result back to a stepAndCheck/stepInstr outcome
      have hbal : returnCount s1.label_stack = s1.function_stack.length ∨
          (s1.label_stack = [] ∧ s1.function_stack.length = 1 ∧ r1 = some .ExecutionFinished) ∨
          (r1 = some .FunctionStackOverflow ∧
            returnCount s1.label_stack = s1.function_stack.length + 1) ∨
          (s1.function_stack.length = s.function_stack.length ∧
            returnCount s1.label_stack < returnCount s.label_stack) := by
        unfold execute_step_internal at hint
        cases hg : s.module.get_func s.ip.func_index with
        | none => simp only [hg] at hint; exact Option.noConfusion hint
        | some func =>
          simp only [hg] at hint
          by_cases himp : func.imported = true
          · rw [if_pos himp] at hint
            injection hint with hq
            injection hq with h1 h2
            subst h1
            exact .inl hInv
          · rw [if_neg himp] at hint
            cases hi : func.instructions.get? s.ip.instr_index with
            | none => simp only [hi] at hint; exact Option.noConfusion hint
            | some instr =>
              simp only [hi] at hint
              unfold stepAndCheck at hint
              cases hst : stepInstr fs
                  { s with ip := { s.ip with instr_index := s.ip.instr_index + 1 } } instr with
              | none => simp only [hst] at hint; exact Option.noConfusion hint
              | some q =>
                rcases q with ⟨s2, r2⟩
                have hprops := (stepInstr_props fs _ instr s2 r2 hst).2 hInv
                cases r2 with
                | some t =>
                  simp only [hst] at hint
                  injection hint with hq
                  injection hq with h1 h2
                  subst h1
                  subst h2
                  rcases hprops with hA | ⟨hA, hB, hC⟩ | ⟨hA, hB⟩ | ⟨hA, hB⟩
                  · exact .inl hA
                  · exact Option.noConfusion hC
                  · exact .inr (.inr (.inl ⟨hA, hB⟩))
                  · exact .inr (.inr (.inr ⟨hA, hB⟩))
                | none =>
                  simp only [hst] at hint
                  by_cases he : s2.label_stack.isEmpty = true
                  · rw [if_pos he] at hint
                    injection hint with hq
                    injection hq with h1 h2
                    subst h1
                    subst h2
                    have hnil : s2.label_stack = [] := List.isEmpty_iff.mp he
                    rcases hprops with hA | ⟨hA, hB, hC⟩ | ⟨hA, hB⟩ | ⟨hA, hB⟩
                    · exact .inl hA
                    · exact .inr (.inl ⟨hA, hB, rfl⟩)
                    · exact Option.noConfusion hA
                    · exact .inr (.inr (.inr ⟨hA, hB⟩))
                  · rw [if_neg he] at hint
                    cases hfc : s2.breakpoints.find_code s2.ip with
                    | some bi =>
                      simp only [hfc] at hint
                      injection hint with hq
                      injection hq with h1 h2
                      subst h1
                      subst h2
                      rcases hprops with hA | ⟨hA, hB, hC⟩ | ⟨hA, hB⟩ | ⟨hA, hB⟩
                      · exact .inl hA
                      · exact absurd hA (by simpa using he)
                      · exact Option.noConfusion hA
                      · exact .inr (.inr (.inr ⟨hA, hB⟩))
                    | none =>
                      simp only [hfc] at hint
                      injection hint with hq
                      injection hq with h1 h2
                      subst h1
                      subst h2
                      rcases hprops with hA | ⟨hA, hB, hC⟩ | ⟨hA, hB⟩ | ⟨hA, hB⟩
                      · exact .inl hA
                      · exact absurd hA (by simpa using he)
                      · exact Option.noConfusion hA
                      · exact .inr (.inr (.inr ⟨hA, hB⟩))
      cases r1 with
      | none =>
        simp only [hint] at h
        injection h with hq
        injection hq with h1 h2
        subst h1
        subst h2
        rcases hbal with hA | ⟨hA, hB, hC⟩ | ⟨hA, hB⟩ | hA
        · exact .inl hA
        · exact Option.noConfusion hC
        · exact Option.noConfusion hA
        · exact .inr (.inr (.inr hA))
      | some t =>
        cases t
        case BreakpointReached bi =>
          simp only [hint] at h
          injection h with hq
          injection hq with h1 h2
          subst h1
          subst h2
          rcases hbal with hA | ⟨hA, hB, hC⟩ | ⟨hA, hB⟩ | hA
          · exact .inl hA
          · simp at hC
          · simp at hA
          · exact .inr (.inr (.inr hA))
        case WatchpointReached wi =>
          simp only [hint] at h
          injection h with hq
          injection hq with h1 h2
          subst h1
          subst h2
          rcases hbal with hA | ⟨hA, hB, hC⟩ | ⟨hA, hB⟩ | hA
          · exact .inl hA
          · simp at hC
          · simp at hA
          · exact .inr (.inr (.inr hA))
        all_goals
          simp only [hint] at h
          injection h with hq
          injection hq with h1 h2
          subst h1
          subst h2
          rcases hbal with hA | ⟨hA, hB, hC⟩ | ⟨hA, hB⟩ | hA
          · exact .inl hA
          · exact .inr (.inl ⟨hA, hB, hC⟩)
          · exact .inr (.inr (.inl ⟨hA, hB⟩))
          · exact .inr (.inr (.inr hA))

/-- `push` leaves both control stacks fully intact. -/
theorem push_stacks (s : VMState) (v : Value) :
    (s.push v).1.label_stack = s.label_stack ∧
    (s.push v).1.function_stack = s.function_stack := by
  rw [VMState.push]
  split
  · exact ⟨rfl, rfl⟩
  · exact ⟨rfl, rfl⟩

/-- The argument-pushing loop leaves both control stacks fully intact. -/
theorem pushArgs_stacks (args : List Value) (s : VMState) :
    (pushArgs s args).1.label_stack = s.label_stack ∧
    (pushArgs s args).1.function_stack = s.function_stack := by
  induction args generalizing s with
  | nil => exact ⟨rfl, rfl⟩
  | cons a rest ih =>
    rcases hp : s.push a with ⟨s1, r1⟩
    have hps := push_stacks s a
    rw [hp] at hps
    cases r1 with
    | some t => simp only [pushArgs, hp]; exact hps
    | none =>
      simp only [pushArgs, hp]
      exact ⟨(ih s1).1.trans hps.1, (ih s1).2.trans hps.2⟩

/-- `run_func_paused` always re-establishes the `#Return = #frames`
balance, whatever its outcome. -/
theorem run_func_paused_balance (s : VMState) (idx : Nat) (args : List Value) :
    returnCount (run_func_paused s idx args).1.label_stack =
      (run_func_paused s idx args).1.function_stack.length := by
  unfold run_func_paused
  rcases hp : pushArgs
      { s with function_stack := [], label_stack := [], value_stack := [],
               trap := none, ip := ⟨0, 0⟩ } args with ⟨s1, r1⟩
  have hst := pushArgs_stacks args
      { s with function_stack := [], label_stack := [], value_stack := [],
               trap := none, ip := ⟨0, 0⟩ }
  rw [hp] at hst
  have hlab : s1.label_stack = [] := hst.1
  have hfun : s1.function_stack = [] := hst.2
  cases r1 with
  | some t =>
    simp only [hp]
    rw [hlab, hfun]
    rfl
  | none =>
    simp only [hp]
    obtain ⟨htrap, hdisj⟩ := call_props s1 idx
    rcases hdisj with ⟨hlb, hfr⟩ | ⟨hlb, hfr, hro, hcap⟩ | ⟨hlb, hflen⟩
    · rw [hlb, hfr, hlab, hfun]
      rfl
    · rw [hfun] at hcap
      exact absurd hcap (by decide)
    · rw [hlb, returnCount_cons_ret, hflen, hlab, hfun]
      rfl

/-- Claim C4 (amended): `run_func_paused` always establishes the balance
`#Return labels = #frames`, and every `execute_step` from a balanced state
either preserves it, or finishes — emptying the label stack while RETAINING
the root frame (`|function_stack| = 1` against zero `Return` labels) — or
fails a call with `FunctionStackOverflow`, leaving one unmatched `Return`
label, or executes a mis-scoped branch that drops `Return` labels without
popping frames. -/
theorem c4_balance_amended (fs : FloatSem) (s : VMState) :
    (∀ idx args, returnCount (run_func_paused s idx args).1.label_stack =
      (run_func_paused s idx args).1.function_stack.length) ∧
    (∀ s' r, execute_step fs s = some (s', r) →
      returnCount s.label_stack = s.function_stack.length →
      returnCount s'.label_stack = s'.function_stack.length ∨
      (s'.label_stack = [] ∧ s'.function_stack.length = 1 ∧ r = some .ExecutionFinished) ∨
      (r = some .FunctionStackOverflow ∧
        returnCount s'.label_stack = s'.function_stack.length + 1) ∨
      (s'.function_stack.length = s.function_stack.length ∧
        returnCount s'.label_stack < returnCount s.label_stack)) :=
  ⟨fun idx args => run_func_paused_balance s idx args,
   fun s' r h hInv => execute_step_balance fs s s' r h hInv⟩

/-- Witness for C4 amended: the very first step of a function whose body is
a single `End` finishes, hitting the second disjunct (root frame retained
against an empty label stack). -/
theorem c4_balance_amended_witness :
    returnCount c4s1.label_stack = c4s1.function_stack.length ∨
    (c4s1.label_stack = [] ∧ c4s1.function_stack.length = 1 ∧
      (some Trap.ExecutionFinished : Option Trap) = some .ExecutionFinished) ∨
    ((some Trap.ExecutionFinished : Option Trap) = some .FunctionStackOverflow ∧
      returnCount c4s1.label_stack = c4s1.function_stack.length + 1) ∨
    (c4s1.function_stack.length = c4sP.function_stack.length ∧
      returnCount c4s1.label_stack < returnCount c4sP.label_stack) :=
  (c4_balance_amended trivialFloatSem c4sP).2 c4s1 (some .ExecutionFinished) rfl (by decide)

/-- Claim C4 (counterexample): running the one-instruction function `End`
reaches the finished state with an EMPTY label stack (zero `Return` labels)
while the function stack still holds the root frame — the claimed equality
fails in exactly the state the claim includes. -/
theorem c4_finished_state_counterexample :
    run_func_paused c4s0 0 [] = (c4sP, none) ∧
    returnCount c4sP.label_stack = c4sP.function_stack.length ∧
    execute_step trivialFloatSem c4sP = some (c4s1, some .ExecutionFinished) ∧
    c4s1.label_stack = [] ∧
    c4s1.function_stack.length = 1 ∧
    returnCount c4s1.label_stack ≠ c4s1.function_stack.length :=
  ⟨rfl, by decide, rfl, rfl, by decide, by decide⟩

/-- Claim C5: a pending sticky trap is returned as-is with the state
untouched; a step from a clean state stores any freshly produced trap —
making it sticky — EXCEPT `BreakpointReached` and `WatchpointReached`,
after which the stored trap stays `none` so the VM remains steppable. -/
theorem c5_sticky (fs : FloatSem) (s : VMState) :
    (∀ t, s.trap = some t → execute_step fs s = some (s, some t)) ∧
    (∀ s' r, s.trap = none → execute_step fs s = some (s', r) →
      ((∀ i, r ≠ some (.BreakpointReached i)) →
        (∀ i, r ≠ some (.WatchpointReached i)) → s'.trap = r) ∧
      ((∃ i, r = some (.BreakpointReached i) ∨ r = some (.WatchpointReached i)) →
        s'.trap = none)) := by
  constructor
  · intro t ht
    simp only [execute_step, ht]
  · intro s' r htr h
    unfold execute_step at h
    simp only [htr] at h
    rcases hint : execute_step_internal fs s with _ | ⟨s1, r1⟩
    · simp only [hint] at h
      exact Option.noConfusion h
    · have htrap1 : s1.trap = s.trap := execute_step_internal_trap fs s s1 r1 hint
      cases r1 with
      | none =>
        simp only [hint] at h
        injection h with hq
        injection hq with h1 h2
        subst h1
        subst h2
        exact ⟨fun _ _ => htrap1.trans htr, fun hex => htrap1.trans htr⟩
      | some t =>
        cases t with
        | BreakpointReached i =>
          simp only [hint] at h
          injection h with hq
          injection hq with h1 h2
          subst h1
          subst h2
          exact ⟨fun hnb _ => absurd rfl (hnb i), fun _ => htrap1.trans htr⟩
        | WatchpointReached i =>
          simp only [hint] at h
          injection h with hq
          injection hq with h1 h2
          subst h1
          subst h2
          exact ⟨fun _ hnw => absurd rfl (hnw i), fun _ => htrap1.trans htr⟩
        | _ =>
          simp only [hint] at h
          injection h with hq
          injection hq with h1 h2
          subst h1
          subst h2
          refine ⟨fun _ _ => rfl, ?_⟩
          rintro ⟨i, hc | hc⟩ <;> simp at hc

/-- Witness for C5: a VM with a pending `DivisionByZero` returns exactly
that trap and the untouched state. -/
theorem c5_sticky_witness :
    execute_step trivialFloatSem c5ws = some (c5ws, some Trap.DivisionByZero) :=
  (c5_sticky trivialFloatSem c5ws).1 Trap.DivisionByZero rfl

/-- Claim C6 (amended): a code breakpoint at P is reported before the
instruction at P executes when the step ARRIVING at P completes without any
trap — in particular without a watchpoint, whose early return skips the
post-step breakpoint check — and `run_func` reports a breakpoint already
sitting on the entry point. -/
theorem c6_breakpoint_amended :
    (∀ (fs : FloatSem) (s s' : VMState) (func : Func) (instr : Instruction) (i : Nat),
      s.trap = none →
      s.module.get_func s.ip.func_index = some func →
      func.imported = false →
      func.instructions.get? s.ip.instr_index = some instr →
      stepInstr fs { s with ip := { s.ip with instr_index := s.ip.instr_index + 1 } } instr
        = some (s', none) →
      s'.label_stack.isEmpty = false →
      s'.breakpoints.find_code s'.ip = some i →
      execute_step fs s = some (s', some (.BreakpointReached i))) ∧
    (∀ (fs : FloatSem) (fuel : Nat) (s s1 : VMState) (idx : Nat) (args : List Value) (i : Nat),
      run_func_paused s idx args = (s1, none) →
      s1.breakpoints.find_code s1.ip = some i →
      run_func fs fuel s idx args = some (s1, .BreakpointReached i)) := by
  constructor
  · intro fs s s' func instr i htr hf himp hi hstep hlab hbp
    rw [htr] at hstep
    simp only [execute_step, htr, execute_step_internal, hf, himp, Bool.false_eq_true,
      if_false, hi, stepAndCheck, hstep, hlab, hbp]
  · intro fs fuel s s1 idx args i hp hbp
    simp only [run_func, hp, hbp]

/-- Witness for C6 amended: stepping the `Nop` at `(0,0)` arrives at `(0,1)`
where a code breakpoint sits, and `BreakpointReached 0` is returned. -/
theorem c6_breakpoint_amended_witness :
    execute_step trivialFloatSem c6ws =
      some ({ c6ws with ip := ⟨0, 1⟩ }, some (.BreakpointReached 0)) :=
  c6_breakpoint_amended.1 trivialFloatSem c6ws { c6ws with ip := ⟨0, 1⟩ }
    { func_type := ⟨[], none, 0⟩, locals := [],
      instructions := [.Nop, .Nop, .End], imported := false }
    .Nop 0 rfl rfl rfl rfl rfl rfl rfl

/-- Claim C6 (counterexample): with a write watchpoint at address 16 and a
code breakpoint at `(0,3)`, the store that triggers the watchpoint ALSO
moves `ip` onto `(0,3)`; the early watchpoint return skips the post-step
breakpoint check, and the next step executes the instruction at `(0,3)`
without ever reporting `BreakpointReached 1`. -/
theorem c6_watchpoint_swallows_breakpoint_counterexample :
    run_func_paused c6s0 0 [] = (c6sP, none) ∧
    execute_step trivialFloatSem c6sP = some (c6s1, none) ∧
    execute_step trivialFloatSem c6s1 = some (c6s2, none) ∧
    execute_step trivialFloatSem c6s2 = some (c6s3, some (.WatchpointReached 0)) ∧
    c6s3.breakpoints.find_code c6s3.ip = some 1 ∧
    execute_step trivialFloatSem c6s3 = some (c6s4, none) :=
  ⟨rfl, rfl, rfl, rfl, rfl, rfl⟩
end Wasmdbg
